import Mathlib

/-!
Verification development for the image-metadata SaaS repository.

This file gives a shallow embedding, in Lean 4, of the deterministic core of
the repository: the title symbol-stripping function, the category keyword
matchers for Adobe Stock and Shutterstock, the CSV formatter, upload
validation, the AI-client response handling, and the sequential
upload-processing orchestrator.  Each definition is translated from the
TypeScript source (`imageHelpers.ts`, `geminiApi.ts`, `ImageUploader.tsx`,
`Index.tsx`); asynchronous effects (HTTP fetch, JSON.parse, file preview
creation, random id generation) are passed in as explicit parameters.
Strings are modelled as Lean `String` (a list of characters); JavaScript
regular-expression character classes are modelled character by character.
-/

/-! ## Character classes of the source's regular expressions -/

/-- The JavaScript regex class `\w` (non-unicode mode): ASCII letters, digits
and underscore. -/
def jsWordChar (c : Char) : Bool :=
  c.isAlphanum || c == '_'

/-- The JavaScript regex class `\s`: the whitespace characters recognised by
JS regular expressions. -/
def jsWhitespaceChar (c : Char) : Bool :=
  [' ', '\t', '\n', '\r', '\x0B', '\x0C',
   '\u00A0', '\u1680', '\u2000', '\u2001', '\u2002', '\u2003', '\u2004',
   '\u2005', '\u2006', '\u2007', '\u2008', '\u2009', '\u200A',
   '\u2028', '\u2029', '\u202F', '\u205F', '\u3000', '\uFEFF'].contains c

/-- The character set kept by `removeSymbolsFromTitle`'s regex
`/[^\w\s.,()-]/g` : word characters, whitespace, period, comma, parentheses
and hyphen. -/
def keptByTitleRegex (c : Char) : Bool :=
  jsWordChar c || jsWhitespaceChar c || c == '.' || c == ',' ||
    c == '(' || c == ')' || c == '-'

/-- `removeSymbolsFromTitle` from `imageHelpers.ts`:
`title.replace(/[^\w\s.,()-]/g, '')` deletes every character outside the
kept class. -/
def removeSymbolsFromTitle (title : String) : String :=
  ⟨title.data.filter keptByTitleRegex⟩

/-- The character set named by the spec sentence for the cleaned title:
"all non-alphanumeric/space/comma/period/hyphen/parenthesis characters
removed" (note: no underscore, and only the plain space). -/
def claimAllowedChar (c : Char) : Bool :=
  c.isAlphanum || c == ' ' || c == ',' || c == '.' || c == '-' ||
    c == '(' || c == ')'

/-- The title cleaning function exactly as the spec sentence describes it,
to be compared with `removeSymbolsFromTitle`. -/
def claimCleanedTitle (s : String) : String :=
  ⟨s.data.filter claimAllowedChar⟩

/-- The character set of the amended claim: word characters (alphanumeric or
underscore), whitespace, comma, period, hyphen, parentheses. -/
def amendedAllowedChar (c : Char) : Bool :=
  (c.isAlphanum || c == '_') || jsWhitespaceChar c || c == ',' || c == '.' ||
    c == '-' || c == '(' || c == ')'

/-- The title cleaning function as the amended claim describes it. -/
def amendedCleanedTitle (s : String) : String :=
  ⟨s.data.filter amendedAllowedChar⟩

/-! ## Splitting on whitespace

`combinedText.split(/\s+/)` splits at maximal whitespace runs; a leading or
trailing run contributes an empty token, exactly as in JavaScript. -/

/-- Worker for `splitWhitespace`.  `inRun` records whether the previous
character belonged to a whitespace run (so that a run acts as a single
separator); `cur` holds the characters of the current token in reverse. -/
def splitWsGo (inRun : Bool) (cur : List Char) : List Char → List String
  | [] => [⟨cur.reverse⟩]
  | c :: rest =>
    if jsWhitespaceChar c then
      if inRun then splitWsGo true [] rest
      else ⟨cur.reverse⟩ :: splitWsGo true [] rest
    else splitWsGo false (c :: cur) rest

/-- `s.split(/\s+/)` on a string: split at maximal whitespace runs; a leading
or trailing run contributes an empty token, exactly as in JavaScript. -/
def splitWhitespace (s : String) : List String :=
  splitWsGo false [] s.data

/-- `Array.prototype.join(sep)`. -/
def joinSep (sep : String) : List String → String
  | [] => ""
  | [x] => x
  | x :: xs => x ++ sep ++ joinSep sep xs


/-! ## Category constants and word-to-category tables (`imageHelpers.ts`) -/

/-- `shutterstockCategories` from `imageHelpers.ts`. -/
def shutterstockCategories : List String := ["Abstract", "Animals/Wildlife", "Arts", "Backgrounds/Textures", "Beauty/Fashion", "Buildings/Landmarks", "Business/Finance", "Celebrities", "Education", "Food and drink", "Healthcare/Medical", "Holidays", "Industrial", "Interiors", "Miscellaneous", "Nature", "Objects", "Parks/Outdoor", "People", "Religion", "Science", "Signs/Symbols", "Sports/Recreation", "Technology", "Transportation", "Vintage"]

def adobeStockCategories : List String := ["Animals", "Buildings and Architecture", "Business", "Drinks", "The Environment", "States of Mind", "Food", "Graphic Resources", "Hobbies and Leisure", "Industry", "Landscapes", "Lifestyle", "People", "Plants and Flowers", "Culture and Religion", "Science", "Social Issues", "Sports", "Technology", "Transport", "Travel"]

/-- `adobeStockCategories` is spliced above; the two `categoryMatches`
object literals follow, modelled as association lists in declaration order
(JavaScript object-literal keys are unique here and preserve insertion
order). -/
def adobeCategoryMatches : List (String × List String) := [
  ("animal", ["Animals"]),
  ("wildlife", ["Animals"]),
  ("pet", ["Animals"]),
  ("dog", ["Animals"]),
  ("cat", ["Animals"]),
  ("bird", ["Animals"]),
  ("fish", ["Animals"]),
  ("horse", ["Animals"]),
  ("mammal", ["Animals"]),
  ("reptile", ["Animals"]),
  ("building", ["Buildings and Architecture"]),
  ("architecture", ["Buildings and Architecture"]),
  ("house", ["Buildings and Architecture"]),
  ("skyscraper", ["Buildings and Architecture"]),
  ("tower", ["Buildings and Architecture"]),
  ("monument", ["Buildings and Architecture"]),
  ("bridge", ["Buildings and Architecture"]),
  ("construction", ["Buildings and Architecture"]),
  ("apartment", ["Buildings and Architecture"]),
  ("business", ["Business"]),
  ("office", ["Business"]),
  ("meeting", ["Business"]),
  ("professional", ["Business"]),
  ("corporate", ["Business"]),
  ("finance", ["Business"]),
  ("economy", ["Business"]),
  ("management", ["Business"]),
  ("entrepreneur", ["Business"]),
  ("startup", ["Business"]),
  ("drink", ["Drinks"]),
  ("beverage", ["Drinks"]),
  ("coffee", ["Drinks"]),
  ("tea", ["Drinks"]),
  ("wine", ["Drinks"]),
  ("beer", ["Drinks"]),
  ("cocktail", ["Drinks"]),
  ("juice", ["Drinks"]),
  ("alcohol", ["Drinks"]),
  ("water", ["Drinks"]),
  ("environment", ["The Environment"]),
  ("nature", ["The Environment"]),
  ("ecology", ["The Environment"]),
  ("ecosystem", ["The Environment"]),
  ("sustainable", ["The Environment"]),
  ("green", ["The Environment"]),
  ("climate", ["The Environment"]),
  ("pollution", ["The Environment"]),
  ("conservation", ["The Environment"]),
  ("renewable", ["The Environment"]),
  ("emotion", ["States of Mind"]),
  ("feeling", ["States of Mind"]),
  ("happiness", ["States of Mind"]),
  ("sadness", ["States of Mind"]),
  ("depression", ["States of Mind"]),
  ("anxiety", ["States of Mind"]),
  ("stress", ["States of Mind"]),
  ("joy", ["States of Mind"]),
  ("fear", ["States of Mind"]),
  ("love", ["States of Mind"]),
  ("food", ["Food"]),
  ("meal", ["Food"]),
  ("cuisine", ["Food"]),
  ("restaurant", ["Food"]),
  ("dinner", ["Food"]),
  ("lunch", ["Food"]),
  ("breakfast", ["Food"]),
  ("cooking", ["Food"]),
  ("fruit", ["Food"]),
  ("vegetable", ["Food"]),
  ("graphic", ["Graphic Resources"]),
  ("design", ["Graphic Resources"]),
  ("illustration", ["Graphic Resources"]),
  ("vector", ["Graphic Resources"]),
  ("font", ["Graphic Resources"]),
  ("typography", ["Graphic Resources"]),
  ("icon", ["Graphic Resources"]),
  ("logo", ["Graphic Resources"]),
  ("pattern", ["Graphic Resources"]),
  ("template", ["Graphic Resources"]),
  ("hobby", ["Hobbies and Leisure"]),
  ("leisure", ["Hobbies and Leisure"]),
  ("recreation", ["Hobbies and Leisure"]),
  ("game", ["Hobbies and Leisure"]),
  ("craft", ["Hobbies and Leisure"]),
  ("diy", ["Hobbies and Leisure"]),
  ("gardening", ["Hobbies and Leisure"]),
  ("reading", ["Hobbies and Leisure"]),
  ("music", ["Hobbies and Leisure"]),
  ("entertainment", ["Hobbies and Leisure"]),
  ("industry", ["Industry"]),
  ("factory", ["Industry"]),
  ("manufacturing", ["Industry"]),
  ("production", ["Industry"]),
  ("warehouse", ["Industry"]),
  ("machinery", ["Industry"]),
  ("industrial", ["Industry"]),
  ("engineering", ["Industry"]),
  ("mining", ["Industry"]),
  ("automation", ["Industry"]),
  ("landscape", ["Landscapes"]),
  ("mountain", ["Landscapes"]),
  ("valley", ["Landscapes"]),
  ("hill", ["Landscapes"]),
  ("desert", ["Landscapes"]),
  ("forest", ["Landscapes"]),
  ("beach", ["Landscapes"]),
  ("ocean", ["Landscapes"]),
  ("sea", ["Landscapes"]),
  ("river", ["Landscapes"]),
  ("lifestyle", ["Lifestyle"]),
  ("fashion", ["Lifestyle"]),
  ("beauty", ["Lifestyle"]),
  ("trend", ["Lifestyle"]),
  ("style", ["Lifestyle"]),
  ("luxury", ["Lifestyle"]),
  ("wellness", ["Lifestyle"]),
  ("health", ["Lifestyle"]),
  ("exercise", ["Lifestyle"]),
  ("home", ["Lifestyle"]),
  ("people", ["People"]),
  ("person", ["People"]),
  ("man", ["People"]),
  ("woman", ["People"]),
  ("child", ["People"]),
  ("family", ["People"]),
  ("portrait", ["People"]),
  ("crowd", ["People"]),
  ("human", ["People"]),
  ("adult", ["People"]),
  ("plant", ["Plants and Flowers"]),
  ("flower", ["Plants and Flowers"]),
  ("tree", ["Plants and Flowers"]),
  ("garden", ["Plants and Flowers"]),
  ("botanical", ["Plants and Flowers"]),
  ("floral", ["Plants and Flowers"]),
  ("herb", ["Plants and Flowers"]),
  ("leaf", ["Plants and Flowers"]),
  ("bush", ["Plants and Flowers"]),
  ("grass", ["Plants and Flowers"]),
  ("culture", ["Culture and Religion"]),
  ("religion", ["Culture and Religion"]),
  ("faith", ["Culture and Religion"]),
  ("tradition", ["Culture and Religion"]),
  ("heritage", ["Culture and Religion"]),
  ("ritual", ["Culture and Religion"]),
  ("ceremony", ["Culture and Religion"]),
  ("worship", ["Culture and Religion"]),
  ("festival", ["Culture and Religion"]),
  ("celebration", ["Culture and Religion"]),
  ("science", ["Science"]),
  ("research", ["Science"]),
  ("laboratory", ["Science"]),
  ("experiment", ["Science"]),
  ("chemistry", ["Science"]),
  ("physics", ["Science"]),
  ("biology", ["Science"]),
  ("medicine", ["Science"]),
  ("innovation", ["Science"]),
  ("social", ["Social Issues"]),
  ("issue", ["Social Issues"]),
  ("poverty", ["Social Issues"]),
  ("inequality", ["Social Issues"]),
  ("discrimination", ["Social Issues"]),
  ("protest", ["Social Issues"]),
  ("activism", ["Social Issues"]),
  ("community", ["Social Issues"]),
  ("diversity", ["Social Issues"]),
  ("inclusion", ["Social Issues"]),
  ("sport", ["Sports"]),
  ("athlete", ["Sports"]),
  ("competition", ["Sports"]),
  ("football", ["Sports"]),
  ("soccer", ["Sports"]),
  ("basketball", ["Sports"]),
  ("tennis", ["Sports"]),
  ("swimming", ["Sports"]),
  ("running", ["Sports"]),
  ("fitness", ["Sports"]),
  ("technology", ["Technology"]),
  ("digital", ["Technology"]),
  ("computer", ["Technology"]),
  ("electronic", ["Technology"]),
  ("device", ["Technology"]),
  ("software", ["Technology"]),
  ("hardware", ["Technology"]),
  ("internet", ["Technology"]),
  ("mobile", ["Technology"]),
  ("tech", ["Technology"]),
  ("transport", ["Transport"]),
  ("vehicle", ["Transport"]),
  ("car", ["Transport"]),
  ("bus", ["Transport"]),
  ("train", ["Transport"]),
  ("aircraft", ["Transport"]),
  ("airplane", ["Transport"]),
  ("ship", ["Transport"]),
  ("bicycle", ["Transport"]),
  ("motorcycle", ["Transport"]),
  ("travel", ["Travel"]),
  ("tourism", ["Travel"]),
  ("vacation", ["Travel"]),
  ("holiday", ["Travel"]),
  ("adventure", ["Travel"]),
  ("exploration", ["Travel"]),
  ("destination", ["Travel"]),
  ("tourist", ["Travel"]),
  ("journey", ["Travel"]),
  ("trip", ["Travel"])]

def shutterstockCategoryMatches : List (String × List String) := [
  ("abstract", ["Abstract"]),
  ("geometric", ["Abstract"]),
  ("pattern", ["Abstract", "Backgrounds/Textures"]),
  ("animal", ["Animals/Wildlife"]),
  ("wildlife", ["Animals/Wildlife"]),
  ("pet", ["Animals/Wildlife"]),
  ("dog", ["Animals/Wildlife"]),
  ("cat", ["Animals/Wildlife"]),
  ("bird", ["Animals/Wildlife"]),
  ("fish", ["Animals/Wildlife"]),
  ("art", ["Arts"]),
  ("painting", ["Arts"]),
  ("sculpture", ["Arts"]),
  ("drawing", ["Arts"]),
  ("creative", ["Arts"]),
  ("background", ["Backgrounds/Textures"]),
  ("texture", ["Backgrounds/Textures"]),
  ("wallpaper", ["Backgrounds/Textures"]),
  ("beauty", ["Beauty/Fashion"]),
  ("fashion", ["Beauty/Fashion"]),
  ("makeup", ["Beauty/Fashion"]),
  ("model", ["Beauty/Fashion", "People"]),
  ("style", ["Beauty/Fashion"]),
  ("clothing", ["Beauty/Fashion"]),
  ("building", ["Buildings/Landmarks"]),
  ("architecture", ["Buildings/Landmarks"]),
  ("landmark", ["Buildings/Landmarks"]),
  ("monument", ["Buildings/Landmarks"]),
  ("skyscraper", ["Buildings/Landmarks"]),
  ("house", ["Buildings/Landmarks"]),
  ("business", ["Business/Finance"]),
  ("finance", ["Business/Finance"]),
  ("office", ["Business/Finance"]),
  ("meeting", ["Business/Finance"]),
  ("corporate", ["Business/Finance"]),
  ("professional", ["Business/Finance"]),
  ("celebrity", ["Celebrities"]),
  ("famous", ["Celebrities"]),
  ("star", ["Celebrities"]),
  ("education", ["Education"]),
  ("school", ["Education"]),
  ("learning", ["Education"]),
  ("student", ["Education"]),
  ("book", ["Education"]),
  ("classroom", ["Education"]),
  ("food", ["Food and drink"]),
  ("drink", ["Food and drink"]),
  ("meal", ["Food and drink"]),
  ("restaurant", ["Food and drink"]),
  ("cooking", ["Food and drink"]),
  ("kitchen", ["Food and drink"]),
  ("health", ["Healthcare/Medical"]),
  ("medical", ["Healthcare/Medical"]),
  ("doctor", ["Healthcare/Medical"]),
  ("hospital", ["Healthcare/Medical"]),
  ("nurse", ["Healthcare/Medical"]),
  ("medicine", ["Healthcare/Medical"]),
  ("holiday", ["Holidays"]),
  ("christmas", ["Holidays"]),
  ("halloween", ["Holidays"]),
  ("easter", ["Holidays"]),
  ("celebration", ["Holidays"]),
  ("festival", ["Holidays"]),
  ("industrial", ["Industrial"]),
  ("factory", ["Industrial"]),
  ("manufacturing", ["Industrial"]),
  ("machinery", ["Industrial"]),
  ("construction", ["Industrial"]),
  ("interior", ["Interiors"]),
  ("room", ["Interiors"]),
  ("furniture", ["Interiors"]),
  ("home", ["Interiors"]),
  ("decoration", ["Interiors"]),
  ("indoor", ["Interiors"]),
  ("misc", ["Miscellaneous"]),
  ("various", ["Miscellaneous"]),
  ("assorted", ["Miscellaneous"]),
  ("nature", ["Nature"]),
  ("landscape", ["Nature", "Parks/Outdoor"]),
  ("mountain", ["Nature", "Parks/Outdoor"]),
  ("forest", ["Nature"]),
  ("plant", ["Nature"]),
  ("flower", ["Nature"]),
  ("tree", ["Nature"]),
  ("river", ["Nature"]),
  ("lake", ["Nature"]),
  ("ocean", ["Nature"]),
  ("sea", ["Nature"]),
  ("object", ["Objects"]),
  ("item", ["Objects"]),
  ("tool", ["Objects"]),
  ("product", ["Objects"]),
  ("park", ["Parks/Outdoor"]),
  ("outdoor", ["Parks/Outdoor"]),
  ("garden", ["Parks/Outdoor"]),
  ("yard", ["Parks/Outdoor"]),
  ("camping", ["Parks/Outdoor"]),
  ("people", ["People"]),
  ("person", ["People"]),
  ("man", ["People"]),
  ("woman", ["People"]),
  ("child", ["People"]),
  ("family", ["People"]),
  ("group", ["People"]),
  ("religion", ["Religion"]),
  ("church", ["Religion"]),
  ("temple", ["Religion"]),
  ("mosque", ["Religion"]),
  ("prayer", ["Religion"]),
  ("spiritual", ["Religion"]),
  ("science", ["Science"]),
  ("research", ["Science"]),
  ("lab", ["Science"]),
  ("chemistry", ["Science"]),
  ("biology", ["Science"]),
  ("physics", ["Science"]),
  ("sign", ["Signs/Symbols"]),
  ("symbol", ["Signs/Symbols"]),
  ("icon", ["Signs/Symbols"]),
  ("logo", ["Signs/Symbols"]),
  ("sport", ["Sports/Recreation"]),
  ("game", ["Sports/Recreation"]),
  ("play", ["Sports/Recreation"]),
  ("athlete", ["Sports/Recreation"]),
  ("fitness", ["Sports/Recreation"]),
  ("exercise", ["Sports/Recreation"]),
  ("recreation", ["Sports/Recreation"]),
  ("technology", ["Technology"]),
  ("computer", ["Technology"]),
  ("digital", ["Technology"]),
  ("electronic", ["Technology"]),
  ("device", ["Technology"]),
  ("smartphone", ["Technology"]),
  ("internet", ["Technology"]),
  ("transportation", ["Transportation"]),
  ("vehicle", ["Transportation"]),
  ("car", ["Transportation"]),
  ("bus", ["Transportation"]),
  ("train", ["Transportation"]),
  ("plane", ["Transportation"]),
  ("airplane", ["Transportation"]),
  ("ship", ["Transportation"]),
  ("boat", ["Transportation"]),
  ("vintage", ["Vintage"]),
  ("retro", ["Vintage"]),
  ("antique", ["Vintage"]),
  ("old", ["Vintage"]),
  ("classic", ["Vintage"])]

/-! ## The category matchers (`suggestCategoriesForAdobeStock`,
`suggestCategoriesForShutterstock`) -/

/-- `categoryMatches[word]`: object-property lookup in the fixed table
(keys are unique, so first match suffices). -/
def lookupTable (table : List (String × List String)) (w : String) :
    Option (List String) :=
  (table.find? (fun p => p.1 == w)).map (fun p => p.2)

/-- `categoryCount[category] = (categoryCount[category] || 0) + 1`:
increment in place if present, otherwise append at the end (JS objects keep
insertion order). -/
def bumpCategory (counts : List (String × Nat)) (cat : String) :
    List (String × Nat) :=
  if counts.any (fun p => p.1 == cat) then
    counts.map (fun p => if p.1 == cat then (p.1, p.2 + 1) else p)
  else counts ++ [(cat, 1)]

/-- The count-accumulation loop of both matchers: for each word, if the
table contains it, bump every category the word maps to. -/
def accumulateCounts (table : List (String × List String))
    (words : List String) : List (String × Nat) :=
  words.foldl
    (fun counts w =>
      match lookupTable table w with
      | some cats => cats.foldl bumpCategory counts
      | none => counts)
    []

/-- `.sort((a, b) => b[1] - a[1]).map(entry => entry[0])`: stable sort
descending by count, then keep the category names.  JavaScript's
`Array.prototype.sort` is stable, so any stable sort (here insertion sort)
produces the same list. -/
def sortedByCountDesc (counts : List (String × Nat)) : List String :=
  (List.insertionSort (fun a b => b.2 ≤ a.2) counts).map Prod.fst

/-- `String.prototype.toLowerCase()`, modelled per character (the table
keys and all ASCII input lowercase identically; `Char.toLower` lowers the
ASCII range). -/
def jsToLowerCase (s : String) : String :=
  ⟨s.data.map Char.toLower⟩

/-- The combined lowercased text of the Adobe Stock matcher:
`(title + " " + keywords.join(" ")).toLowerCase()`. -/
def adobeCombinedText (title : String) (keywords : List String) : String :=
  jsToLowerCase (title ++ " " ++ joinSep " " keywords)

/-- The `categoryCount` object computed by `suggestCategoriesForAdobeStock`. -/
def adobeCategoryCount (title : String) (keywords : List String) :
    List (String × Nat) :=
  accumulateCounts adobeCategoryMatches
    (splitWhitespace (adobeCombinedText title keywords))

/-- `suggestCategoriesForAdobeStock` from `imageHelpers.ts`: top-1 category
by match count, defaulting to `["Animals"]`. -/
def suggestCategoriesForAdobeStock (title : String) (keywords : List String) :
    List String :=
  let sortedCategories := sortedByCountDesc (adobeCategoryCount title keywords)
  if 1 ≤ sortedCategories.length then sortedCategories.take 1
  else ["Animals"]

/-- The combined lowercased text of the Shutterstock matcher:
`(title + " " + description).toLowerCase()`. -/
def shutterstockCombinedText (title description : String) : String :=
  jsToLowerCase (title ++ " " ++ description)

/-- The `categoryCount` object computed by `suggestCategoriesForShutterstock`. -/
def shutterstockCategoryCount (title description : String) :
    List (String × Nat) :=
  accumulateCounts shutterstockCategoryMatches
    (splitWhitespace (shutterstockCombinedText title description))

/-- `suggestCategoriesForShutterstock` from `imageHelpers.ts`: top-2
categories by match count; with fewer than two matched categories the list
is padded from the defaults `["Miscellaneous", "Objects"]`. -/
def suggestCategoriesForShutterstock (title description : String) :
    List String :=
  let sortedCategories :=
    sortedByCountDesc (shutterstockCategoryCount title description)
  if 2 ≤ sortedCategories.length then sortedCategories.take 2
  else (sortedCategories ++ ["Miscellaneous", "Objects"]).take 2


/-! ## The matcher algorithm as the spec describes it

Definitions named `claim...`/`spec...` follow the words of the spec
("split on whitespace, look up each token in a fixed word-to-category-list
table, accumulate a frequency count per category, sort descending by count,
return the top-N, falling back to a hardcoded default category when no
token matches"), to be compared with the code-side definitions above. -/

/-- The categories a single token contributes (empty when the token is not
in the table). -/
def tokenCategories (table : List (String × List String)) (w : String) :
    List String :=
  (lookupTable table w).getD []

/-- All (token, category) contributions, flattened in token order. -/
def matchedFlat (table : List (String × List String))
    (words : List String) : List String :=
  words.flatMap (tokenCategories table)

/-- First occurrences of the elements of a list, skipping those already in
`seen`. -/
def firstOccurAux (seen : List String) : List String → List String
  | [] => []
  | c :: l =>
    if c ∈ seen then firstOccurAux seen l
    else c :: firstOccurAux (c :: seen) l

/-- The distinct elements of a list in order of first occurrence. -/
def firstOccurrences (l : List String) : List String :=
  firstOccurAux [] l

/-- The per-category frequency count as the spec describes it: each
category in order of first insertion, paired with the number of
(token, category) matches it received. -/
def specCategoryCount (table : List (String × List String))
    (words : List String) : List (String × Nat) :=
  (firstOccurrences (matchedFlat table words)).map
    (fun c => (c, (matchedFlat table words).count c))

/-- Whether some token of the text matches the table. -/
def anyTokenMatches (table : List (String × List String))
    (words : List String) : Bool :=
  words.any (fun w => (lookupTable table w).isSome)

/-- The Adobe Stock matcher exactly as the spec's algorithm sentence
describes it: top-1 of the sorted matched categories, the default exactly
when no token matches. -/
def claimTopCategoriesAdobe (title : String) (keywords : List String) :
    List String :=
  let words := splitWhitespace (adobeCombinedText title keywords)
  if anyTokenMatches adobeCategoryMatches words then
    (sortedByCountDesc (specCategoryCount adobeCategoryMatches words)).take 1
  else ["Animals"]

/-- The Shutterstock matcher exactly as the spec's algorithm sentence
describes it: top-2 of the sorted matched categories, the default list
exactly when no token matches. -/
def claimTopCategoriesShutterstock (title description : String) :
    List String :=
  let words := splitWhitespace (shutterstockCombinedText title description)
  if anyTokenMatches shutterstockCategoryMatches words then
    (sortedByCountDesc (specCategoryCount shutterstockCategoryMatches words)).take 2
  else ["Miscellaneous", "Objects"]

/-- The Shutterstock matcher as the amended claim describes it: like
`claimTopCategoriesShutterstock`, but the top-2 matched categories are
padded at the end from the defaults `["Miscellaneous", "Objects"]` to
exactly two entries when fewer than two categories matched. -/
def amendedTopCategoriesShutterstock (title description : String) :
    List String :=
  let words := splitWhitespace (shutterstockCombinedText title description)
  if anyTokenMatches shutterstockCategoryMatches words then
    ((sortedByCountDesc (specCategoryCount shutterstockCategoryMatches words)).take 2
      ++ ["Miscellaneous", "Objects"]).take 2
  else ["Miscellaneous", "Objects"]

/-! ## Equivalence of the fold-based accumulation with the spec's counts -/

theorem firstOccurAux_congr_seen :
    ∀ (l : List String) (s1 s2 : List String),
      (∀ x, x ∈ s1 ↔ x ∈ s2) → firstOccurAux s1 l = firstOccurAux s2 l := by
  intro l
  induction l with
  | nil => intro s1 s2 _; rfl
  | cons c l ih =>
    intro s1 s2 hiff
    by_cases hc : c ∈ s1
    · rw [firstOccurAux, firstOccurAux, if_pos hc, if_pos ((hiff c).mp hc)]
      exact ih s1 s2 hiff
    · rw [firstOccurAux, firstOccurAux, if_neg hc,
        if_neg (fun h => hc ((hiff c).mpr h))]
      refine congrArg (c :: ·) (ih _ _ ?_)
      intro x
      simp only [List.mem_cons]
      exact or_congr Iff.rfl (hiff x)

theorem mem_firstOccurAux_not_seen :
    ∀ (l seen : List String) (x : String),
      x ∈ firstOccurAux seen l → x ∉ seen := by
  intro l
  induction l with
  | nil => intro seen x hx; simp [firstOccurAux] at hx
  | cons c l ih =>
    intro seen x hx
    rw [firstOccurAux] at hx
    by_cases hc : c ∈ seen
    · rw [if_pos hc] at hx
      exact ih seen x hx
    · rw [if_neg hc] at hx
      rcases List.mem_cons.mp hx with h | h
      · exact h ▸ hc
      · intro hxs
        exact ih (c :: seen) x h (List.mem_cons_of_mem c hxs)

theorem mem_of_mem_firstOccurAux :
    ∀ (l seen : List String) (x : String),
      x ∈ firstOccurAux seen l → x ∈ l := by
  intro l
  induction l with
  | nil => intro seen x hx; simp [firstOccurAux] at hx
  | cons c l ih =>
    intro seen x hx
    rw [firstOccurAux] at hx
    by_cases hc : c ∈ seen
    · rw [if_pos hc] at hx
      exact List.mem_cons_of_mem c (ih seen x hx)
    · rw [if_neg hc] at hx
      rcases List.mem_cons.mp hx with h | h
      · exact h ▸ List.mem_cons_self c l
      · exact List.mem_cons_of_mem c (ih (c :: seen) x h)

/-- The accumulation loop over the words equals a single fold of
`bumpCategory` over the flattened (token, category) matches. -/
theorem accumulateCounts_eq_foldl_flat
    (table : List (String × List String)) (words : List String) :
    accumulateCounts table words =
      (matchedFlat table words).foldl bumpCategory [] := by
  rw [accumulateCounts, matchedFlat]
  generalize ([] : List (String × Nat)) = acc
  induction words generalizing acc with
  | nil => rfl
  | cons w ws ih =>
    rw [List.foldl_cons, List.flatMap_cons, List.foldl_append, ih]
    cases hl : lookupTable table w with
    | none => simp [hl, tokenCategories]
    | some cats => simp [hl, tokenCategories]

/-- Folding `bumpCategory` over a list of categories produces: the old
counts, each raised by the category's number of occurrences, followed by
the newly seen categories in order of first occurrence with their
occurrence counts. -/
theorem foldl_bumpCategory_eq :
    ∀ (l : List String) (acc : List (String × Nat)),
      l.foldl bumpCategory acc =
        acc.map (fun p => (p.1, p.2 + l.count p.1)) ++
          (firstOccurAux (acc.map Prod.fst) l).map
            (fun c => (c, l.count c)) := by
  intro l
  induction l with
  | nil =>
    intro acc
    simp [firstOccurAux]
  | cons c l ih =>
    intro acc
    rw [List.foldl_cons, ih (bumpCategory acc c)]
    by_cases h : c ∈ acc.map Prod.fst
    · -- the category is already present: increment in place
      have hany : (acc.any (fun p => p.1 == c)) = true := by
        rw [List.any_eq_true]
        obtain ⟨p, hp, hpc⟩ := List.mem_map.mp h
        exact ⟨p, hp, beq_iff_eq.mpr hpc⟩
      rw [bumpCategory, if_pos hany]
      have hkeys :
          (acc.map (fun p => if p.1 == c then (p.1, p.2 + 1) else p)).map
              Prod.fst = acc.map Prod.fst := by
        rw [List.map_map]
        apply List.map_congr_left
        intro p _
        by_cases hpc : p.1 = c <;> simp [hpc]
      rw [hkeys]
      conv_rhs => rw [firstOccurAux, if_pos h]
      congr 1
      · rw [List.map_map]
        apply List.map_congr_left
        intro p _
        by_cases hpc : p.1 = c
        · simp only [hpc, Function.comp, beq_self_eq_true, if_true,
            List.count_cons]
          simp [List.count_cons]
          omega
        · simp [hpc, Function.comp, List.count_cons]
      · apply List.map_congr_left
        intro k hk
        have hkn : k ∉ acc.map Prod.fst := mem_firstOccurAux_not_seen _ _ _ hk
        have hkc : ¬ (k == c) = true := by
          intro hb
          exact hkn (beq_iff_eq.mp hb ▸ h)
        have hck : ¬ c = k := fun hck => hkc (beq_iff_eq.mpr hck.symm)
        simp [List.count_cons, hkc, hck]
    · -- a new category: appended at the end with count 1
      have hany : (acc.any (fun p => p.1 == c)) = false := by
        rw [List.any_eq_false]
        intro p hp hb
        exact h (List.mem_map.mpr ⟨p, hp, beq_iff_eq.mp hb⟩)
      rw [bumpCategory, hany, if_neg (by simp)]
      conv_rhs => rw [firstOccurAux, if_neg h]
      rw [List.map_append, List.map_append]
      simp only [List.map_cons, List.map_nil]
      have hfo :
          firstOccurAux ((acc.map Prod.fst) ++ [c]) l =
            firstOccurAux (c :: acc.map Prod.fst) l := by
        apply firstOccurAux_congr_seen
        intro x
        simp [or_comm]
      rw [hfo]
      have hmap :
          acc.map (fun p => (p.1, p.2 + l.count p.1)) =
            acc.map (fun p => (p.1, p.2 + (c :: l).count p.1)) := by
        apply List.map_congr_left
        intro p hp
        have hpc : ¬ (p.1 == c) = true := by
          intro hb
          exact h (List.mem_map.mpr ⟨p, hp, beq_iff_eq.mp hb⟩)
        have hcp : ¬ c = p.1 := fun hcp => hpc (beq_iff_eq.mpr hcp.symm)
        simp [List.count_cons, hpc, hcp]
      rw [hmap, List.append_assoc, List.singleton_append]
      congr 1
      congr 1
      · simp [List.count_cons, Nat.add_comm]
      · apply List.map_congr_left
        intro k hk
        have hkn : k ∉ c :: acc.map Prod.fst :=
          mem_firstOccurAux_not_seen _ _ _ hk
        have hkc : ¬ (k == c) = true := by
          intro hb
          exact hkn (beq_iff_eq.mp hb ▸ List.mem_cons_self c _)
        have hck : ¬ c = k := fun hck => hkc (beq_iff_eq.mpr hck.symm)
        simp [List.count_cons, hkc, hck]

/-- The code's accumulated `categoryCount` object equals the spec's
description of the counts. -/
theorem accumulateCounts_eq_spec
    (table : List (String × List String)) (words : List String) :
    accumulateCounts table words = specCategoryCount table words := by
  rw [accumulateCounts_eq_foldl_flat, foldl_bumpCategory_eq]
  simp [specCategoryCount, firstOccurrences]

/-! ## Emptiness of the counts versus "no token matches" -/

/-- Both tables map every word to a nonempty category list. -/
theorem adobe_table_values_nonempty :
    adobeCategoryMatches.all (fun p => !p.2.isEmpty) = true := by decide

theorem shutterstock_table_values_nonempty :
    shutterstockCategoryMatches.all (fun p => !p.2.isEmpty) = true := by decide

theorem lookupTable_some_mem {table : List (String × List String)}
    {w : String} {cats : List String}
    (h : lookupTable table w = some cats) : ∃ p ∈ table, p.2 = cats := by
  rw [lookupTable] at h
  cases hf : table.find? (fun p => p.1 == w) with
  | none => rw [hf] at h; simp at h
  | some p =>
    rw [hf] at h
    refine ⟨p, List.mem_of_find?_eq_some hf, ?_⟩
    simpa using h

theorem matchedFlat_eq_nil_of_no_match
    {table : List (String × List String)} {words : List String}
    (h : anyTokenMatches table words = false) :
    matchedFlat table words = [] := by
  rw [matchedFlat, List.flatMap_eq_nil_iff]
  intro w hw
  rw [anyTokenMatches, List.any_eq_false] at h
  have := h w hw
  rw [tokenCategories]
  cases hl : lookupTable table w with
  | none => rfl
  | some cats => rw [hl] at this; simp at this

theorem matchedFlat_ne_nil_of_match
    {table : List (String × List String)} {words : List String}
    (hne : table.all (fun p => !p.2.isEmpty) = true)
    (h : anyTokenMatches table words = true) :
    matchedFlat table words ≠ [] := by
  rw [anyTokenMatches, List.any_eq_true] at h
  obtain ⟨w, hw, hsome⟩ := h
  cases hl : lookupTable table w with
  | none => rw [hl] at hsome; simp at hsome
  | some cats =>
    obtain ⟨p, hp, hpc⟩ := lookupTable_some_mem hl
    have hcne : cats ≠ [] := by
      rw [List.all_eq_true] at hne
      have := hne p hp
      rw [hpc] at this
      simpa [List.isEmpty_iff] using this
    cases hcats : cats with
    | nil => exact absurd hcats hcne
    | cons c cs =>
      intro hnil
      have hcmem : c ∈ tokenCategories table w := by
        rw [tokenCategories, hl, Option.getD_some, hcats]
        exact List.mem_cons_self c cs
      have : c ∈ matchedFlat table words :=
        List.mem_flatMap.mpr ⟨w, hw, hcmem⟩
      rw [hnil] at this
      simp at this

theorem specCategoryCount_nil
    {table : List (String × List String)} {words : List String}
    (h : anyTokenMatches table words = false) :
    specCategoryCount table words = [] := by
  rw [specCategoryCount, matchedFlat_eq_nil_of_no_match h]
  rfl

theorem specCategoryCount_ne_nil
    {table : List (String × List String)} {words : List String}
    (hne : table.all (fun p => !p.2.isEmpty) = true)
    (h : anyTokenMatches table words = true) :
    specCategoryCount table words ≠ [] := by
  have hflat := matchedFlat_ne_nil_of_match hne h
  rw [specCategoryCount]
  cases hf : matchedFlat table words with
  | nil => exact absurd hf hflat
  | cons c cs =>
    rw [firstOccurrences, firstOccurAux, if_neg (List.not_mem_nil c)]
    simp

/-! ## The sorted category list -/

theorem length_sortedByCountDesc (counts : List (String × Nat)) :
    (sortedByCountDesc counts).length = counts.length := by
  rw [sortedByCountDesc, List.length_map, List.length_insertionSort]

theorem mem_sortedByCountDesc {c : String} {counts : List (String × Nat)} :
    c ∈ sortedByCountDesc counts ↔ ∃ p ∈ counts, p.1 = c := by
  rw [sortedByCountDesc, List.mem_map]
  constructor
  · rintro ⟨p, hp, rfl⟩
    exact ⟨p, (List.perm_insertionSort _ counts).mem_iff.mp hp, rfl⟩
  · rintro ⟨p, hp, rfl⟩
    exact ⟨p, (List.perm_insertionSort _ counts).mem_iff.mpr hp, rfl⟩

/-- The sorted list underlying `sortedByCountDesc` is a descending-by-count
permutation of the accumulated counts. -/
theorem sortedByCountDesc_spec (counts : List (String × Nat)) :
    ∃ p : List (String × Nat),
      p.Perm counts ∧
        List.Sorted (fun a b => b.2 ≤ a.2) p ∧
        sortedByCountDesc counts = p.map Prod.fst := by
  refine ⟨List.insertionSort (fun a b => b.2 ≤ a.2) counts,
    List.perm_insertionSort _ counts, ?_, rfl⟩
  haveI : IsTotal (String × Nat) (fun a b => b.2 ≤ a.2) :=
    ⟨fun a b => Nat.le_total b.2 a.2⟩
  haveI : IsTrans (String × Nat) (fun a b => b.2 ≤ a.2) :=
    ⟨fun _ _ _ h1 h2 => Nat.le_trans h2 h1⟩
  exact List.sorted_insertionSort _ counts

/-! ## Selection equivalences for the two matchers -/

/-- `suggestCategoriesForAdobeStock` implements the spec's algorithm
sentence exactly. -/
theorem suggestAdobe_eq_claim (title : String) (keywords : List String) :
    suggestCategoriesForAdobeStock title keywords =
      claimTopCategoriesAdobe title keywords := by
  rw [suggestCategoriesForAdobeStock, claimTopCategoriesAdobe,
    adobeCategoryCount, accumulateCounts_eq_spec]
  cases ham : anyTokenMatches adobeCategoryMatches
      (splitWhitespace (adobeCombinedText title keywords))
  · rw [specCategoryCount_nil ham]
    simp [sortedByCountDesc, List.insertionSort]
  · have hne := specCategoryCount_ne_nil adobe_table_values_nonempty ham
    have hlen : 1 ≤ (sortedByCountDesc (specCategoryCount adobeCategoryMatches
        (splitWhitespace (adobeCombinedText title keywords)))).length := by
      rw [length_sortedByCountDesc]
      exact Nat.one_le_iff_ne_zero.mpr
        (fun h0 => hne (List.length_eq_zero.mp h0))
    rw [if_pos hlen, if_pos rfl]

/-- `suggestCategoriesForShutterstock` implements the amended claim's
algorithm: top-2 matched categories, padded from the defaults. -/
theorem suggestShutterstock_eq_amended (title description : String) :
    suggestCategoriesForShutterstock title description =
      amendedTopCategoriesShutterstock title description := by
  rw [suggestCategoriesForShutterstock, amendedTopCategoriesShutterstock,
    shutterstockCategoryCount, accumulateCounts_eq_spec]
  cases ham : anyTokenMatches shutterstockCategoryMatches
      (splitWhitespace (shutterstockCombinedText title description))
  · rw [specCategoryCount_nil ham]
    simp [sortedByCountDesc, List.insertionSort]
  · simp only [if_pos rfl]
    set s := sortedByCountDesc (specCategoryCount shutterstockCategoryMatches
      (splitWhitespace (shutterstockCombinedText title description))) with hs
    by_cases hlen : 2 ≤ s.length
    · rw [if_pos hlen]
      have htk : (s.take 2).length = 2 := by
        rw [List.length_take]
        omega
      rw [List.take_append_of_le_length (by omega : 2 ≤ (s.take 2).length),
        List.take_take]
      simp
    · rw [if_neg hlen]
      have : s.take 2 = s := List.take_of_length_le (by omega)
      rw [this]
      simp

/-! ## Shape of the matcher outputs -/

/-- Every value list in the Adobe table is contained in
`adobeStockCategories`. -/
theorem adobe_table_values_in_categories :
    adobeCategoryMatches.all
      (fun p => p.2.all (fun c => adobeStockCategories.contains c)) = true := by
  decide

/-- Every value list in the Shutterstock table is contained in
`shutterstockCategories`. -/
theorem shutterstock_table_values_in_categories :
    shutterstockCategoryMatches.all
      (fun p => p.2.all (fun c => shutterstockCategories.contains c)) = true := by
  decide

theorem mem_matchedFlat_table_value
    {table : List (String × List String)} {words : List String} {c : String}
    (hc : c ∈ matchedFlat table words) : ∃ p ∈ table, c ∈ p.2 := by
  rw [matchedFlat] at hc
  obtain ⟨w, _, hcw⟩ := List.mem_flatMap.mp hc
  rw [tokenCategories] at hcw
  cases hl : lookupTable table w with
  | none => rw [hl] at hcw; simp at hcw
  | some cats =>
    rw [hl, Option.getD_some] at hcw
    obtain ⟨p, hp, hpc⟩ := lookupTable_some_mem hl
    exact ⟨p, hp, hpc ▸ hcw⟩

theorem mem_accumulateCounts_key
    {table : List (String × List String)} {words : List String}
    {p : String × Nat} (hp : p ∈ accumulateCounts table words) :
    p.1 ∈ matchedFlat table words := by
  rw [accumulateCounts_eq_spec, specCategoryCount] at hp
  obtain ⟨c, hc, hcp⟩ := List.mem_map.mp hp
  have : p.1 = c := by rw [← hcp]
  rw [this, firstOccurrences] at *
  exact mem_of_mem_firstOccurAux _ _ _ hc

theorem mem_sorted_adobe_categories
    {title : String} {keywords : List String} {c : String}
    (hc : c ∈ sortedByCountDesc (adobeCategoryCount title keywords)) :
    c ∈ adobeStockCategories := by
  obtain ⟨p, hp, hpc⟩ := mem_sortedByCountDesc.mp hc
  have hflat : p.1 ∈ matchedFlat adobeCategoryMatches
      (splitWhitespace (adobeCombinedText title keywords)) :=
    mem_accumulateCounts_key hp
  obtain ⟨q, hq, hcq⟩ := mem_matchedFlat_table_value hflat
  have hall := List.all_eq_true.mp adobe_table_values_in_categories q hq
  have := List.all_eq_true.mp hall p.1 hcq
  rw [← hpc]
  exact List.mem_of_elem_eq_true this

theorem mem_sorted_shutterstock_categories
    {title description : String} {c : String}
    (hc : c ∈ sortedByCountDesc (shutterstockCategoryCount title description)) :
    c ∈ shutterstockCategories := by
  obtain ⟨p, hp, hpc⟩ := mem_sortedByCountDesc.mp hc
  have hflat : p.1 ∈ matchedFlat shutterstockCategoryMatches
      (splitWhitespace (shutterstockCombinedText title description)) :=
    mem_accumulateCounts_key hp
  obtain ⟨q, hq, hcq⟩ := mem_matchedFlat_table_value hflat
  have hall := List.all_eq_true.mp shutterstock_table_values_in_categories q hq
  have := List.all_eq_true.mp hall p.1 hcq
  rw [← hpc]
  exact List.mem_of_elem_eq_true this

/-! ## Claim theorems: title cleaning and the matchers -/

/-- C9: `removeSymbolsFromTitle` is idempotent: applying it twice equals
applying it once, for every input string. -/
theorem removeSymbols_idempotent (s : String) :
    removeSymbolsFromTitle (removeSymbolsFromTitle s) =
      removeSymbolsFromTitle s := by
  show (⟨((s.data.filter keptByTitleRegex)).filter keptByTitleRegex⟩ : String)
      = ⟨s.data.filter keptByTitleRegex⟩
  rw [List.filter_filter]
  exact congrArg String.mk (by simp)

/-- C2 (counterexample): on the input `"a_b!"`, which contains the banned
symbol `!`, `removeSymbolsFromTitle` keeps the underscore (`\w` includes
`_`), while removing all characters except alphanumerics, spaces, commas,
periods, hyphens and parentheses would drop it; the claim's description of
the kept character set is therefore wrong. -/
theorem removeSymbols_claim_charset_counterexample :
    (∃ c ∈ "a_b!".data, keptByTitleRegex c = false) ∧
    removeSymbolsFromTitle "a_b!" = "a_b" ∧
    claimCleanedTitle "a_b!" = "ab" ∧
    ¬ removeSymbolsFromTitle "a_b!" = claimCleanedTitle "a_b!" := by decide

/-- Pointwise agreement of the code's kept set with the amended claim's
allowed set. -/
theorem keptByTitleRegex_eq_amended (c : Char) :
    keptByTitleRegex c = amendedAllowedChar c := by
  rw [keptByTitleRegex, amendedAllowedChar, jsWordChar]
  simp [Bool.or_comm, Bool.or_left_comm, Bool.or_assoc]

/-- C2 (amended): for every input string containing a banned symbol,
`removeSymbolsFromTitle` returns the same string with all characters
removed except word characters (alphanumeric or underscore), whitespace,
commas, periods, hyphens and parentheses. -/
theorem removeSymbols_matches_amended_charset (s : String)
    (_hbanned : ∃ c ∈ s.data, keptByTitleRegex c = false) :
    removeSymbolsFromTitle s = amendedCleanedTitle s := by
  rw [removeSymbolsFromTitle, amendedCleanedTitle]
  exact congrArg String.mk
    (List.filter_congr (fun c _ => keptByTitleRegex_eq_amended c))

theorem removeSymbols_matches_amended_charset_witness :
    (∃ c ∈ "a!".data, keptByTitleRegex c = false) ∧
    removeSymbolsFromTitle "a!" = amendedCleanedTitle "a!" :=
  ⟨by decide, removeSymbols_matches_amended_charset "a!" (by decide)⟩

/-- C3 (counterexample): with title `"A cat and a dog"` and keywords
`["cat", "dog"]`, the Adobe Stock matcher does return `["Animals"]`, but
the accumulated match count of the winning category is 4 (each of `cat`
and `dog` occurs both in the title and in the keyword list), not 2. -/
theorem adobe_cat_dog_count_counterexample :
    suggestCategoriesForAdobeStock "A cat and a dog" ["cat", "dog"]
        = ["Animals"] ∧
    adobeCategoryCount "A cat and a dog" ["cat", "dog"]
        = [("Animals", 4)] ∧
    ¬ adobeCategoryCount "A cat and a dog" ["cat", "dog"]
        = [("Animals", 2)] := by decide

/-- C3 (amended): with title `"A cat and a dog"` and keywords
`["cat", "dog"]`, the Adobe Stock matcher returns exactly `["Animals"]`,
and the winning category's accumulated match count is 4. -/
theorem adobe_cat_dog_example_amended :
    suggestCategoriesForAdobeStock "A cat and a dog" ["cat", "dog"]
        = ["Animals"] ∧
    adobeCategoryCount "A cat and a dog" ["cat", "dog"]
        = [("Animals", 4)] := by decide

/-- C4 (counterexample): the Shutterstock matcher does not return the
top-2 matched categories with the default list used exactly when no token
matches: on title `"cat"` and empty description exactly one category
matches, and the code pads the result with `"Miscellaneous"` instead of
returning only the matched category. -/
theorem matcher_topn_claim_counterexample :
    suggestCategoriesForShutterstock "cat" ""
        = ["Animals/Wildlife", "Miscellaneous"] ∧
    claimTopCategoriesShutterstock "cat" "" = ["Animals/Wildlife"] ∧
    ¬ suggestCategoriesForShutterstock "cat" ""
        = claimTopCategoriesShutterstock "cat" "" := by decide

/-- C4 (amended): both matchers split the combined lowercased text on
whitespace, accumulate per-category counts from their fixed tables, sort
stably descending by count and return the top-N; Adobe Stock (N = 1) falls
back to its hardcoded default exactly when no token matches, while
Shutterstock (N = 2) pads the matched top-2 from the defaults
`["Miscellaneous", "Objects"]` whenever fewer than two categories match.
The third conjunct certifies the sorting step: the name list comes from a
descending-by-count permutation of the accumulated counts. -/
theorem matchers_implement_spec_algorithm :
    (∀ title keywords, suggestCategoriesForAdobeStock title keywords
        = claimTopCategoriesAdobe title keywords) ∧
    (∀ title description, suggestCategoriesForShutterstock title description
        = amendedTopCategoriesShutterstock title description) ∧
    (∀ counts : List (String × Nat), ∃ p : List (String × Nat),
        p.Perm counts ∧ List.Sorted (fun a b => b.2 ≤ a.2) p ∧
        sortedByCountDesc counts = p.map Prod.fst) :=
  ⟨suggestAdobe_eq_claim, suggestShutterstock_eq_amended,
    sortedByCountDesc_spec⟩

/-- C10: for every input, the Shutterstock matcher returns exactly two
categories, each a member of `shutterstockCategories`, and the Adobe Stock
matcher returns exactly one category, a member of
`adobeStockCategories`. -/
theorem suggest_categories_shape (title description : String)
    (keywords : List String) :
    ((suggestCategoriesForShutterstock title description).length = 2 ∧
      ∀ c ∈ suggestCategoriesForShutterstock title description,
        c ∈ shutterstockCategories) ∧
    ((suggestCategoriesForAdobeStock title keywords).length = 1 ∧
      ∀ c ∈ suggestCategoriesForAdobeStock title keywords,
        c ∈ adobeStockCategories) := by
  constructor
  · rw [suggestCategoriesForShutterstock]
    by_cases h : 2 ≤ (sortedByCountDesc
        (shutterstockCategoryCount title description)).length
    · rw [if_pos h]
      refine ⟨by rw [List.length_take]; omega, ?_⟩
      intro c hc
      exact mem_sorted_shutterstock_categories (List.mem_of_mem_take hc)
    · rw [if_neg h]
      refine ⟨by rw [List.length_take, List.length_append]; simp, ?_⟩
      intro c hc
      rcases List.mem_append.mp (List.mem_of_mem_take hc) with h1 | h2
      · exact mem_sorted_shutterstock_categories h1
      · rcases List.mem_cons.mp h2 with rfl | h3
        · decide
        · rcases List.mem_cons.mp h3 with rfl | h4
          · decide
          · simp at h4
  · rw [suggestCategoriesForAdobeStock]
    by_cases h : 1 ≤ (sortedByCountDesc
        (adobeCategoryCount title keywords)).length
    · rw [if_pos h]
      refine ⟨by rw [List.length_take]; omega, ?_⟩
      intro c hc
      exact mem_sorted_adobe_categories (List.mem_of_mem_take hc)
    · rw [if_neg h]
      refine ⟨rfl, ?_⟩
      intro c hc
      rcases List.mem_cons.mp hc with rfl | h1
      · decide
      · simp at h1

theorem suggest_categories_shape_witness :
    (suggestCategoriesForShutterstock "cat" "").length = 2 ∧
    "Animals/Wildlife" ∈ shutterstockCategories ∧
    (suggestCategoriesForAdobeStock "" []).length = 1 :=
  ⟨(suggest_categories_shape "cat" "" []).1.1,
    (suggest_categories_shape "cat" "" []).1.2 "Animals/Wildlife" (by decide),
    (suggest_categories_shape "" "" []).2.1⟩

/-! ## Data model (`ProcessedImage` and friends) -/

/-- The metadata of an uploaded `File` object that the code inspects. -/
structure FileMeta where
  name : String
  type : String
  size : Nat
deriving DecidableEq

/-- The `result` field of a `ProcessedImage` (`imageHelpers.ts`). -/
structure AnalysisData where
  title : String
  description : String
  keywords : List String
  prompt : Option String
  baseModel : Option String
  categories : Option (List String)
deriving DecidableEq

/-- The status union type of `ProcessedImage`. -/
inductive ImageStatus
  | pending
  | processing
  | complete
  | error
deriving DecidableEq

/-- `ProcessedImage` from `imageHelpers.ts`. -/
structure ProcessedImage where
  id : String
  file : FileMeta
  previewUrl : String
  status : ImageStatus
  result : Option AnalysisData
  error : Option String
deriving DecidableEq

/-! ## The CSV formatter (`formatImagesAsCSV`) -/

/-- Wrap a field in double quotes (the only quoting the formatter does). -/
def quoteField (s : String) : String :=
  "\"" ++ s ++ "\""

/-- `img.file.type.startsWith('video/')`. -/
def isVideoFile (f : FileMeta) : Bool :=
  "video/".data.isPrefixOf f.type.data

/-- `img.result?.title ? removeSymbolsFromTitle(img.result.title) : ''`
(an empty title is falsy in JS). -/
def cleanTitleOf (result : Option AnalysisData) : String :=
  match result with
  | some r => if r.title == "" then "" else removeSymbolsFromTitle r.title
  | none => ""

/-- The 1-based index of the first suggested category inside
`adobeStockCategories`, as a string; empty when absent (video rows). -/
def videoCategoryIndex (result : Option AnalysisData) : String :=
  match result with
  | some r =>
    match r.categories with
    | some (cat :: _) =>
      match adobeStockCategories.findIdx? (fun c => c == cat) with
      | some idx => toString (idx + 1)
      | none => ""
    | _ => ""
  | none => ""

/-- `img.result?.keywords?.join(sep) || ''`. -/
def keywordsJoined (sep : String) (result : Option AnalysisData) : String :=
  match result with
  | some r => joinSep sep r.keywords
  | none => ""

/-- `img.result?.description || ''`. -/
def descriptionOf (result : Option AnalysisData) : String :=
  match result with
  | some r => r.description
  | none => ""

/-- `img.result?.prompt || ''`. -/
def promptOf (result : Option AnalysisData) : String :=
  match result with
  | some r => r.prompt.getD ""
  | none => ""

/-- `img.result?.categories?.join(',') || ''`. -/
def categoriesJoined (result : Option AnalysisData) : String :=
  match result with
  | some r => joinSep "," (r.categories.getD [])
  | none => ""

/-- One data row of `formatImagesAsCSV`: video rows have their own shape;
image rows depend on the selected platform. -/
def csvRowFor (isFreepikOnly isShutterstock isAdobeStock : Bool)
    (img : ProcessedImage) : String :=
  let cleanTitle := cleanTitleOf img.result
  if isVideoFile img.file then
    joinSep "," [quoteField img.file.name, quoteField cleanTitle,
      quoteField (keywordsJoined "," img.result),
      quoteField (videoCategoryIndex img.result)]
  else if isFreepikOnly then
    joinSep ";" [quoteField img.file.name, quoteField cleanTitle,
      quoteField (keywordsJoined ", " img.result),
      quoteField (promptOf img.result), quoteField "leonardo"]
  else if isShutterstock then
    joinSep "," [quoteField img.file.name,
      quoteField (descriptionOf img.result),
      quoteField (keywordsJoined "," img.result),
      quoteField (categoriesJoined img.result)]
  else if isAdobeStock then
    joinSep "," [quoteField img.file.name, quoteField cleanTitle,
      quoteField (keywordsJoined ", " img.result),
      quoteField (categoriesJoined img.result)]
  else
    joinSep "," [quoteField img.file.name, quoteField cleanTitle,
      quoteField (descriptionOf img.result),
      quoteField (keywordsJoined ", " img.result)]

/-- The header row fields for the selected platform (the source also
declares a `videoHeaders` constant but never uses it to pick headers). -/
def csvHeaders (isFreepikOnly isShutterstock isAdobeStock : Bool) :
    List String :=
  if isFreepikOnly then
    [quoteField "File name", quoteField "Title", quoteField "Keywords",
      quoteField "Prompt", quoteField "Base-Model"]
  else if isShutterstock then
    [quoteField "Filename", quoteField "Description", quoteField "Keywords",
      quoteField "Categories"]
  else if isAdobeStock then
    [quoteField "Filename", quoteField "Title", quoteField "Keywords",
      quoteField "Category"]
  else
    [quoteField "Filename", quoteField "Title", quoteField "Description",
      quoteField "Keywords"]

/-- `formatImagesAsCSV` from `imageHelpers.ts`: the header row followed by
one row per completed image (with a result), all joined by newlines. -/
def formatImagesAsCSV (images : List ProcessedImage)
    (isFreepikOnly isShutterstock isAdobeStock : Bool) : String :=
  joinSep "\n"
    (joinSep (if isFreepikOnly then ";" else ",")
        (csvHeaders isFreepikOnly isShutterstock isAdobeStock) ::
      (images.filter
          (fun img => img.status == ImageStatus.complete
            && img.result.isSome)).map
        (csvRowFor isFreepikOnly isShutterstock isAdobeStock))

theorem cleanTitleOf_eq (r : AnalysisData) :
    cleanTitleOf (some r) = removeSymbolsFromTitle r.title := by
  rw [cleanTitleOf]
  by_cases h : r.title == ""
  · rw [if_pos h, beq_iff_eq.mp h]
    rfl
  · rw [if_neg h]

/-- C6: for every image list with no image of status complete (in
particular the empty list), `formatImagesAsCSV` returns only the header
row of the selected platform, with no trailing newline or data rows. -/
theorem csv_header_only_when_no_complete (images : List ProcessedImage)
    (isFreepikOnly isShutterstock isAdobeStock : Bool)
    (h : ∀ img ∈ images, ¬ img.status = ImageStatus.complete) :
    formatImagesAsCSV images isFreepikOnly isShutterstock isAdobeStock =
      joinSep (if isFreepikOnly then ";" else ",")
        (csvHeaders isFreepikOnly isShutterstock isAdobeStock) := by
  rw [formatImagesAsCSV]
  have hf : images.filter
      (fun img => img.status == ImageStatus.complete && img.result.isSome)
        = [] := by
    rw [List.filter_eq_nil_iff]
    intro img him
    simp [beq_iff_eq, h img him]
  rw [hf]
  rfl

theorem csv_header_only_when_no_complete_witness :
    formatImagesAsCSV [] false false false
      = "\"Filename\",\"Title\",\"Description\",\"Keywords\"" := by
  rw [csv_header_only_when_no_complete [] false false false (by simp)]
  decide

/-- C5: a single completed image (not a video) with an empty description,
exported for the default platform, yields exactly one data row after the
header: four double-quoted fields holding the file name, the
symbol-cleaned title, the empty description and the keywords joined by
`", "`. -/
theorem csv_single_complete_row (img : ProcessedImage) (r : AnalysisData)
    (hst : img.status = ImageStatus.complete) (hres : img.result = some r)
    (hdesc : r.description = "") (hvid : isVideoFile img.file = false) :
    formatImagesAsCSV [img] false false false =
      quoteField "Filename" ++ "," ++ quoteField "Title" ++ "," ++
        quoteField "Description" ++ "," ++ quoteField "Keywords" ++ "\n" ++
      quoteField img.file.name ++ "," ++
        quoteField (removeSymbolsFromTitle r.title) ++ "," ++
        quoteField "" ++ "," ++
        quoteField (joinSep ", " r.keywords) := by
  rw [formatImagesAsCSV]
  have hf : [img].filter
      (fun i => i.status == ImageStatus.complete && i.result.isSome)
        = [img] := by
    simp [hst, hres]
  rw [hf]
  simp [csvRowFor, csvHeaders, joinSep, hvid, hres, hdesc,
    cleanTitleOf_eq, descriptionOf, keywordsJoined, String.append_assoc]

theorem csv_single_complete_row_witness :
    formatImagesAsCSV
        [⟨"i1", ⟨"photo.png", "image/png", 100⟩, "p",
          ImageStatus.complete,
          some ⟨"A cat!", "", ["cat", "pet"], none, none, none⟩, none⟩]
        false false false
      = "\"Filename\",\"Title\",\"Description\",\"Keywords\"" ++ "\n" ++
        "\"photo.png\",\"A cat\",\"\",\"cat, pet\"" := by
  rw [csv_single_complete_row
    ⟨"i1", ⟨"photo.png", "image/png", 100⟩, "p", ImageStatus.complete,
      some ⟨"A cat!", "", ["cat", "pet"], none, none, none⟩, none⟩
    ⟨"A cat!", "", ["cat", "pet"], none, none, none⟩
    rfl rfl rfl (by decide)]
  decide

/-! ## Upload validation (`isValidMediaType`, `isValidFileSize`) and the
per-file part of `processFiles` (`ImageUploader.tsx`) -/

/-- The accepted MIME types of `isValidMediaType`. -/
def acceptedMediaTypes : List String :=
  ["image/jpeg", "image/png", "image/jpg", "image/webp", "image/svg+xml",
   "application/postscript", "application/eps", "application/x-eps",
   "image/eps", "application/illustrator",
   "video/mp4", "video/quicktime", "video/x-msvideo", "video/mpeg",
   "video/webm", "video/x-matroska"]

/-- `isValidMediaType` from `imageHelpers.ts`. -/
def isValidMediaType (f : FileMeta) : Bool :=
  acceptedMediaTypes.contains f.type

/-- `isValidFileSize` from `imageHelpers.ts` (`maxSizeGB` defaults to 10 at
the call site). -/
def isValidFileSize (f : FileMeta) (maxSizeGB : Nat) : Bool :=
  f.size ≤ maxSizeGB * 1024 * 1024 * 1024

/-- The pure core of `processFiles` (`ImageUploader.tsx`): per file, reject
invalid media types, then oversized files, then preview failures; accepted
files become pending `ProcessedImage` entries.  `previewOf` stands for the
asynchronous `createImagePreview` (`none` = rejected promise) and `idOf`
for `generateId`, indexed by the file's position. -/
def processFiles (previewOf : FileMeta → Option String)
    (idOf : Nat → String) (files : List FileMeta) : List ProcessedImage :=
  files.enum.filterMap (fun p =>
    if !isValidMediaType p.2 then none
    else if !isValidFileSize p.2 10 then none
    else
      match previewOf p.2 with
      | some url =>
        some ⟨idOf p.1, p.2, url, ImageStatus.pending, none, none⟩
      | none => none)

/-! ## The orchestrator (`handleProcessImages`, `Index.tsx`) -/

/-- The `Platform` union type (`PlatformSelector.tsx`); `RF123` stands for
the string `'123RF'`. -/
inductive Platform
  | Freepik
  | AdobeStock
  | Shutterstock
  | Vecteezy
  | Canva
  | RF123
  | Dreamstime
deriving DecidableEq

/-- `AnalysisResult` from `geminiApi.ts`. -/
structure AnalysisResult where
  title : String
  description : String
  keywords : List String
  prompt : Option String
  baseModel : Option String
  categories : Option (List String)
  error : Option String
deriving DecidableEq

/-- JavaScript truthiness of the optional `error` string field. -/
def errTruthy : Option String → Bool
  | some s => !(s == "")
  | none => false

/-- The per-image update of `setImages` after `analyzeImageWithGemini`
returns: status becomes error or complete, the result object is rebuilt
(prompt/baseModel only in Freepik-only mode, categories only in
Shutterstock mode), and the error field is stored as returned. -/
def resolveEntry (isFreepikOnly isShutterstock : Bool)
    (res : AnalysisResult) (img : ProcessedImage) : ProcessedImage :=
  if errTruthy res.error then
    { img with
        status := ImageStatus.error,
        result := none,
        error := res.error }
  else
    { img with
        status := ImageStatus.complete,
        result := some ⟨res.title, res.description, res.keywords,
          if isFreepikOnly then res.prompt else none,
          if isFreepikOnly then res.baseModel else none,
          if isShutterstock then res.categories else none⟩,
        error := res.error }

/-- `setImages(prev => prev.map(img => img.id === image.id ? ... : img))`. -/
def applyResult (isFreepikOnly isShutterstock : Bool) (targetId : String)
    (res : AnalysisResult) (l : List ProcessedImage) :
    List ProcessedImage :=
  l.map (fun img =>
    if img.id == targetId then resolveEntry isFreepikOnly isShutterstock res img
    else img)

/-- The bulk update before the loop:
`setImages(prev => prev.map(img => img.status === 'pending' ?
{...img, status: 'processing'} : img))`. -/
def bulkMarkProcessing (l : List ProcessedImage) : List ProcessedImage :=
  l.map (fun img =>
    if img.status == ImageStatus.pending then
      { img with status := ImageStatus.processing }
    else img)

/-- The observable trace of one orchestrator run: the inter-call delays (in
milliseconds), the successive values of the image list, the files sent to
the AI client, and the final image list. -/
structure LoopTrace where
  delaysMs : List Nat
  states : List (List ProcessedImage)
  calls : List FileMeta
  final : List ProcessedImage
deriving DecidableEq

/-- The sequential `for (const image of pendingImages)` loop.  `i` is the
position of the current image in `pendingImages` (the code's
`pendingImages.indexOf(image)`, which equals the position since the
entries are distinct objects); a 2000 ms delay is awaited before every
call but the first.  `outcome` stands for the awaited result of
`analyzeImageWithGemini` for a given image. -/
def processLoop (outcome : ProcessedImage → AnalysisResult)
    (isFreepikOnly isShutterstock : Bool) :
    List ProcessedImage → Nat → List ProcessedImage → LoopTrace
  | [], _, cur => ⟨[], [], [], cur⟩
  | img :: rest, i, cur =>
    let ds : List Nat := if 0 < i then [2000] else []
    let next := applyResult isFreepikOnly isShutterstock img.id
      (outcome img) cur
    let t := processLoop outcome isFreepikOnly isShutterstock rest
      (i + 1) next
    ⟨ds ++ t.delaysMs, next :: t.states, img.file :: t.calls, t.final⟩

/-- `handleProcessImages` from `Index.tsx`: the guards (missing API key, no
pending image, exhausted credits) abort the run; otherwise all pending
images are bulk-marked processing and then resolved sequentially.  The
returned trace's states start with the initial list and the bulk-marked
list. -/
def handleProcessImagesModel (apiKey : String)
    (canGenerateMetadata creditOk : Bool) (platforms : List Platform)
    (outcome : ProcessedImage → AnalysisResult)
    (images : List ProcessedImage) : Option LoopTrace :=
  if apiKey == "" then none
  else
    let pendingImages :=
      images.filter (fun img => img.status == ImageStatus.pending)
    if pendingImages.isEmpty then none
    else if !canGenerateMetadata then none
    else if !creditOk then none
    else
      let s1 := bulkMarkProcessing images
      let t := processLoop outcome (platforms == [Platform.Freepik])
        (platforms == [Platform.Shutterstock]) pendingImages 0 s1
      some ⟨t.delaysMs, images :: s1 :: t.states, t.calls, t.final⟩

/-! ## Claim theorems: the orchestrator on a batch of three -/

/-- The bulk-mark update on a single pending image. -/
def markProcessing (img : ProcessedImage) : ProcessedImage :=
  { img with status := ImageStatus.processing }

/-- The resolved entry of image `x` after its AI call returns, in the
state the loop left it (bulk-marked processing). -/
def resolvedFor (platforms : List Platform)
    (outcome : ProcessedImage → AnalysisResult) (x : ProcessedImage) :
    ProcessedImage :=
  resolveEntry (platforms == [Platform.Freepik])
    (platforms == [Platform.Shutterstock]) (outcome x) (markProcessing x)

theorem resolveEntry_id (f s : Bool) (res : AnalysisResult)
    (img : ProcessedImage) : (resolveEntry f s res img).id = img.id := by
  rw [resolveEntry]
  split <;> rfl

theorem resolveEntry_status (f s : Bool) (res : AnalysisResult)
    (img : ProcessedImage) :
    (resolveEntry f s res img).status = ImageStatus.error ∨
      (resolveEntry f s res img).status = ImageStatus.complete := by
  rw [resolveEntry]
  split
  · exact Or.inl rfl
  · exact Or.inr rfl

/-- A demonstration batch of three distinct pending images, with an
all-success outcome, for the concrete counterexample run. -/
def demoImage (i n : String) : ProcessedImage :=
  ⟨i, ⟨n, "image/png", 10⟩, "url", ImageStatus.pending, none, none⟩

def demoBatch : List ProcessedImage :=
  [demoImage "a" "a.png", demoImage "b" "b.png", demoImage "c" "c.png"]

def demoOutcome : ProcessedImage → AnalysisResult :=
  fun _ => ⟨"title", "desc", ["k"], none, none, none, none⟩

def demoRun : Option LoopTrace :=
  handleProcessImagesModel "key" true true [Platform.AdobeStock]
    demoOutcome demoBatch

def demoTrace : LoopTrace :=
  demoRun.getD ⟨[], [], [], []⟩

/-- C1 (counterexample): running the orchestrator on a concrete batch of
exactly 3 pending images, some reached state of the run (the bulk-marked
one) holds two distinct images that are simultaneously `processing`,
refuting the claim's "at no point are two distinct images simultaneously
in the processing status". -/
theorem orchestrator_three_pending_counterexample :
    demoRun.isSome = true ∧
    demoTrace.delaysMs = [2000, 2000] ∧
    (∃ s ∈ demoTrace.states, ∃ x ∈ s, ∃ y ∈ s, ¬ x.id = y.id ∧
      x.status = ImageStatus.processing ∧
      y.status = ImageStatus.processing) := by decide

/-- C1 (amended): started on a batch of exactly 3 pending images (distinct
ids) with the guards passing, the orchestrator performs exactly 2
inter-call 2000 ms delays and one AI call per image in order; every image
passes from pending through processing to complete-or-error; but the
pending-to-processing transition happens for all three images in a single
bulk update before the loop, so the run reaches a state in which two (in
fact three) distinct images are simultaneously `processing`. -/
theorem orchestrator_three_pending_batch
    (a b c : ProcessedImage) (outcome : ProcessedImage → AnalysisResult)
    (apiKey : String) (platforms : List Platform)
    (hkey : ¬ apiKey = "")
    (ha : a.status = ImageStatus.pending)
    (hb : b.status = ImageStatus.pending)
    (hc : c.status = ImageStatus.pending)
    (hab : ¬ a.id = b.id) (hac : ¬ a.id = c.id) (hbc : ¬ b.id = c.id) :
    handleProcessImagesModel apiKey true true platforms outcome [a, b, c] =
      some ⟨[2000, 2000],
        [[a, b, c],
         [markProcessing a, markProcessing b, markProcessing c],
         [resolvedFor platforms outcome a, markProcessing b,
           markProcessing c],
         [resolvedFor platforms outcome a, resolvedFor platforms outcome b,
           markProcessing c],
         [resolvedFor platforms outcome a, resolvedFor platforms outcome b,
           resolvedFor platforms outcome c]],
        [a.file, b.file, c.file],
        [resolvedFor platforms outcome a, resolvedFor platforms outcome b,
          resolvedFor platforms outcome c]⟩ ∧
    (∀ x : ProcessedImage,
      (resolvedFor platforms outcome x).status = ImageStatus.error ∨
        (resolvedFor platforms outcome x).status = ImageStatus.complete) ∧
    (∃ x y : ProcessedImage,
      x ∈ [markProcessing a, markProcessing b, markProcessing c] ∧
      y ∈ [markProcessing a, markProcessing b, markProcessing c] ∧
      ¬ x.id = y.id ∧ x.status = ImageStatus.processing ∧
      y.status = ImageStatus.processing) := by
  have hk2 : (apiKey == "") = false := beq_eq_false_iff_ne.mpr hkey
  have hba : (b.id == a.id) = false :=
    beq_eq_false_iff_ne.mpr (fun h => hab h.symm)
  have hca : (c.id == a.id) = false :=
    beq_eq_false_iff_ne.mpr (fun h => hac h.symm)
  have hcb : (c.id == b.id) = false :=
    beq_eq_false_iff_ne.mpr (fun h => hbc h.symm)
  have hab2 : (a.id == b.id) = false := beq_eq_false_iff_ne.mpr hab
  have hac2 : (a.id == c.id) = false := beq_eq_false_iff_ne.mpr hac
  have hbc2 : (b.id == c.id) = false := beq_eq_false_iff_ne.mpr hbc
  refine ⟨?_, fun x => resolveEntry_status _ _ _ _, ?_⟩
  · simp only [handleProcessImagesModel, hk2, Bool.false_eq_true, if_false,
      processLoop, applyResult, bulkMarkProcessing, List.filter_cons,
      List.filter_nil, ha, hb, hc, beq_self_eq_true, if_true,
      List.isEmpty_cons, Bool.not_true, List.map_cons, List.map_nil,
      markProcessing, resolvedFor, resolveEntry_id, hba, hca, hcb,
      hab2, hac2, hbc2]
    simp [resolveEntry_id, hba, hca, hcb, hab2, hac2, hbc2, markProcessing]
  · exact ⟨markProcessing a, markProcessing b,
      List.mem_cons_self _ _,
      List.mem_cons_of_mem _ (List.mem_cons_self _ _),
      hab, rfl, rfl⟩

theorem orchestrator_three_pending_batch_witness :
    handleProcessImagesModel "key" true true [Platform.AdobeStock]
        demoOutcome demoBatch =
      some ⟨[2000, 2000],
        [[demoImage "a" "a.png", demoImage "b" "b.png",
           demoImage "c" "c.png"],
         [markProcessing (demoImage "a" "a.png"),
           markProcessing (demoImage "b" "b.png"),
           markProcessing (demoImage "c" "c.png")],
         [resolvedFor [Platform.AdobeStock] demoOutcome (demoImage "a" "a.png"),
           markProcessing (demoImage "b" "b.png"),
           markProcessing (demoImage "c" "c.png")],
         [resolvedFor [Platform.AdobeStock] demoOutcome (demoImage "a" "a.png"),
           resolvedFor [Platform.AdobeStock] demoOutcome (demoImage "b" "b.png"),
           markProcessing (demoImage "c" "c.png")],
         [resolvedFor [Platform.AdobeStock] demoOutcome (demoImage "a" "a.png"),
           resolvedFor [Platform.AdobeStock] demoOutcome (demoImage "b" "b.png"),
           resolvedFor [Platform.AdobeStock] demoOutcome (demoImage "c" "c.png")]],
        [(demoImage "a" "a.png").file, (demoImage "b" "b.png").file,
          (demoImage "c" "c.png").file],
        [resolvedFor [Platform.AdobeStock] demoOutcome (demoImage "a" "a.png"),
          resolvedFor [Platform.AdobeStock] demoOutcome (demoImage "b" "b.png"),
          resolvedFor [Platform.AdobeStock] demoOutcome (demoImage "c" "c.png")]⟩ ∧
    (∀ x : ProcessedImage,
      (resolvedFor [Platform.AdobeStock] demoOutcome x).status
          = ImageStatus.error ∨
        (resolvedFor [Platform.AdobeStock] demoOutcome x).status
          = ImageStatus.complete) ∧
    (∃ x y : ProcessedImage,
      x ∈ [markProcessing (demoImage "a" "a.png"),
        markProcessing (demoImage "b" "b.png"),
        markProcessing (demoImage "c" "c.png")] ∧
      y ∈ [markProcessing (demoImage "a" "a.png"),
        markProcessing (demoImage "b" "b.png"),
        markProcessing (demoImage "c" "c.png")] ∧
      ¬ x.id = y.id ∧ x.status = ImageStatus.processing ∧
      y.status = ImageStatus.processing) :=
  orchestrator_three_pending_batch
    (demoImage "a" "a.png") (demoImage "b" "b.png") (demoImage "c" "c.png")
    demoOutcome "key" [Platform.AdobeStock]
    (by decide) rfl rfl rfl (by decide) (by decide) (by decide)

/-! ## Claim theorems: upload rejection (PDF) -/

/-- The loop calls the AI client exactly once per pending image, in
order. -/
theorem processLoop_calls (outcome : ProcessedImage → AnalysisResult)
    (isF isS : Bool) :
    ∀ (pending : List ProcessedImage) (i : Nat)
      (cur : List ProcessedImage),
      (processLoop outcome isF isS pending i cur).calls =
        pending.map (fun img => img.file) := by
  intro pending
  induction pending with
  | nil => intro i cur; rfl
  | cons img rest ih =>
    intro i cur
    rw [processLoop, List.map_cons]
    simp only []
    rw [ih]

/-- Every image produced by `processFiles` passed `isValidMediaType`. -/
theorem processFiles_valid_type (previewOf : FileMeta → Option String)
    (idOf : Nat → String) (files : List FileMeta) :
    ∀ img ∈ processFiles previewOf idOf files,
      isValidMediaType img.file = true := by
  intro img him
  obtain ⟨p, _, heq⟩ := List.mem_filterMap.mp him
  by_cases h1 : isValidMediaType p.2
  · by_cases h2 : isValidFileSize p.2 10
    · cases hpv : previewOf p.2 with
      | none => simp [h1, h2, hpv] at heq
      | some url =>
        simp only [h1, h2, hpv, Bool.not_true, Bool.false_eq_true,
          if_false] at heq
        rw [← Option.some_inj.mp heq]
        exact h1
    · simp [h1, h2] at heq
  · simp [h1] at heq

/-- C7: a file whose MIME type is `application/pdf` fails
`isValidMediaType`, is never added to the image list by `processFiles`,
and consequently the orchestrator never issues an AI call for it. -/
theorem pdf_rejected_before_pipeline :
    (∀ f : FileMeta, f.type = "application/pdf" →
      isValidMediaType f = false) ∧
    (∀ (previewOf : FileMeta → Option String) (idOf : Nat → String)
      (files : List FileMeta),
      ∀ img ∈ processFiles previewOf idOf files,
        ¬ img.file.type = "application/pdf") ∧
    (∀ (previewOf : FileMeta → Option String) (idOf : Nat → String)
      (files : List FileMeta) (apiKey : String)
      (canGenerateMetadata creditOk : Bool) (platforms : List Platform)
      (outcome : ProcessedImage → AnalysisResult) (t : LoopTrace),
      handleProcessImagesModel apiKey canGenerateMetadata creditOk platforms
          outcome (processFiles previewOf idOf files) = some t →
      ∀ cf ∈ t.calls, ¬ cf.type = "application/pdf") := by
  have hmain : ∀ (previewOf : FileMeta → Option String)
      (idOf : Nat → String) (files : List FileMeta),
      ∀ img ∈ processFiles previewOf idOf files,
        ¬ img.file.type = "application/pdf" := by
    intro pv ids files img him hpdf
    have hv := processFiles_valid_type pv ids files img him
    rw [isValidMediaType, hpdf] at hv
    exact absurd hv (by decide)
  refine ⟨?_, hmain, ?_⟩
  · intro f hf
    rw [isValidMediaType, hf]
    decide
  · intro pv ids files apiKey canGen creditOk platforms outcome t ht
    intro cf hcf hpdf
    simp only [handleProcessImagesModel] at ht
    split at ht
    · exact absurd ht (by simp)
    · split at ht
      · exact absurd ht (by simp)
      · split at ht
        · exact absurd ht (by simp)
        · split at ht
          · exact absurd ht (by simp)
          · have ht2 := Option.some_inj.mp ht
            have hcalls : t.calls =
                ((processFiles pv ids files).filter
                  (fun img => img.status == ImageStatus.pending)).map
                    (fun img => img.file) := by
              rw [← ht2]
              exact processLoop_calls _ _ _ _ _ _
            rw [hcalls] at hcf
            obtain ⟨img, himg, hfile⟩ := List.mem_map.mp hcf
            have him2 : img ∈ processFiles pv ids files :=
              List.mem_of_mem_filter himg
            exact hmain pv ids files img him2 (by rw [hfile, hpdf])

/-! ## The AI client (`analyzeImageWithGemini`, `geminiApi.ts`)

The HTTP fetch and `JSON.parse` are effects; they enter the model as the
`FetchOutcome` value and the `parseJson` parameter.  Everything after the
response arrives — mode dispatch, JSON extraction from the reply text,
field post-processing, category suggestion and the error policy — is
translated below. -/

/-- First index at which `pat` occurs in the list, if any. -/
def findSubstringIdx (pat : List Char) : List Char → Option Nat
  | [] => if pat.isPrefixOf ([] : List Char) then some 0 else none
  | c :: rest =>
    if pat.isPrefixOf (c :: rest) then some 0
    else (findSubstringIdx pat rest).map (fun n => n + 1)

/-- `String.prototype.includes`. -/
def strContains (s sub : String) : Bool :=
  (findSubstringIdx sub.data s.data).isSome

/-- The `categories` word lists of `getRelevantFreepikKeywords`. -/
def freepikKeywordCategories : List (String × List String) := [
  ("objects", ["table", "chair", "desk", "lamp", "computer", "phone", "book", "pen", "pencil", "notebook", "cup", "mug", "bottle", "glass", "plate", "bowl", "fork", "knife", "spoon", "watch", "clock", "bag", "box", "container", "bin", "trash", "recycle"]),
  ("nature", ["tree", "plant", "flower", "grass", "leaf", "mountain", "river", "lake", "ocean", "sea", "beach", "forest", "garden", "park", "sky", "cloud", "rain", "snow", "sun", "moon", "star"]),
  ("animals", ["dog", "cat", "bird", "fish", "horse", "cow", "sheep", "goat", "chicken", "pig", "duck", "rabbit", "mouse", "rat", "hamster", "guinea", "turtle", "snake", "lizard", "frog"]),
  ("colors", ["red", "blue", "green", "yellow", "orange", "purple", "pink", "brown", "black", "white", "gray", "gold", "silver", "bronze", "copper", "turquoise", "teal", "navy", "maroon", "olive"]),
  ("materials", ["wood", "metal", "plastic", "glass", "ceramic", "cotton", "wool", "silk", "leather", "paper", "cardboard", "stone", "marble", "granite", "concrete", "brick", "rubber"]),
  ("concepts", ["happy", "sad", "angry", "calm", "quiet", "loud", "fast", "slow", "big", "small", "tall", "short", "long", "wide", "narrow", "thick", "thin", "heavy", "light", "old", "new", "young", "ancient", "modern", "futuristic", "vintage", "retro", "classic", "traditional", "contemporary"])]

/-- The `styleAdjectives` list of `getRelevantFreepikKeywords`. -/
def freepikStyleAdjectives : List String :=
  ["elegant", "beautiful", "stylish", "modern", "rustic", "minimalist",
   "luxurious", "colorful", "vintage", "artistic"]

/-- `getRelevantFreepikKeywords` from `imageHelpers.ts`: derive a keyword
list from the description (words longer than 3 letters, stripped to word
characters, deduplicated in first-occurrence order), extend it with
category words and style adjectives appearing in the description, pad it
for short lists, and cap it at 30. -/
def getRelevantFreepikKeywords (imageDescription : String) : List String :=
  let description := jsToLowerCase imageDescription
  let words := (((splitWhitespace description).filter
      (fun w => 3 < w.data.length)).map
        (fun w => (⟨w.data.filter jsWordChar⟩ : String))).filter
      (fun w => 0 < w.data.length)
  let uniqueWords := firstOccurrences words
  let keywords1 := freepikKeywordCategories.foldl
    (fun acc p => p.2.foldl
      (fun acc2 w =>
        if strContains description w && !(acc2.contains w) then acc2 ++ [w]
        else acc2)
      acc)
    uniqueWords
  let keywords2 := freepikStyleAdjectives.foldl
    (fun acc adj =>
      if strContains description adj && !(acc.contains adj) then acc ++ [adj]
      else acc)
    keywords1
  let keywords3 :=
    if keywords2.length < 15 then
      let k1 :=
        if strContains description "indoor" || strContains description "room"
            || strContains description "interior" then
          keywords2 ++ ["interior", "indoor", "home", "decor"]
        else keywords2
      let k2 :=
        if strContains description "outdoor"
            || strContains description "outside"
            || strContains description "garden" then
          k1 ++ ["outdoor", "exterior", "garden", "nature"]
        else k1
      if strContains description "person" || strContains description "people"
          || strContains description "man"
          || strContains description "woman" then
        k2 ++ ["person", "people", "lifestyle", "portrait"]
      else k2
    else keywords2
  (firstOccurrences keywords3).take 30

/-- The generation mode union type (`GenerationModeSelector.tsx`). -/
inductive GenerationMode
  | metadata
  | imageToPrompt
deriving DecidableEq

/-- The fields the code reads off the JSON object parsed from the reply. -/
structure ParsedMeta where
  title : Option String
  description : Option String
  keywords : Option (List String)
  prompt : Option String
  baseModel : Option String
  categories : Option (List String)
deriving DecidableEq

/-- The outcome of the HTTP call: an error response (carrying
`errorData?.error?.message`, possibly empty) or the reply text. -/
inductive FetchOutcome
  | httpError (msg : String)
  | ok (text : String)
deriving DecidableEq

/-- The result returned by the catch-all error handler: every field empty
except the error message. -/
def errorAnalysisResult (msg : String) : AnalysisResult :=
  ⟨"", "", [], none, none, none, some msg⟩

/-- The non-greedy fenced-block regexes
(e.g. a json code fence): the match starts at the first
occurrence of the opening fence that is followed by a closing fence, and
the captured group is the (shortest) text between them. -/
def fenceSearch (openPat closePat : List Char) : List Char → Option (List Char)
  | [] => none
  | c :: rest =>
    if openPat.isPrefixOf (c :: rest) then
      match findSubstringIdx closePat ((c :: rest).drop openPat.length) with
      | some j => some (((c :: rest).drop openPat.length).take j)
      | none => fenceSearch openPat closePat rest
    else fenceSearch openPat closePat rest

/-- The greedy brace regex: from the first opening brace to the last
closing brace, provided the latter comes after the former. -/
def braceExtract (text : List Char) : Option (List Char) :=
  match text.findIdx? (fun c => c == '{'),
      ((text.enum.filter (fun p => p.2 == '}')).map Prod.fst).getLast? with
  | some i, some j =>
    if i < j then some ((text.drop i).take (j - i + 1)) else none
  | _, _ => none

/-- The JSON-string extraction of `analyzeImageWithGemini`: try the
json fence, then the anonymous fence, then the brace span (for the
fences, an empty captured group falls back to the whole match, mirroring
`jsonMatch[1] || jsonMatch[0]`); default to the whole text; then strip
everything before the first opening brace and after the last closing
brace. -/
def extractJsonStr (text : List Char) : List Char :=
  let jsonStr :=
    match fenceSearch "```json\n".data "\n```".data text with
    | some s =>
      if s.isEmpty then "```json\n".data ++ s ++ "\n```".data else s
    | none =>
      match fenceSearch "```\n".data "\n```".data text with
      | some s => if s.isEmpty then "```\n".data ++ s ++ "\n```".data else s
      | none =>
        match braceExtract text with
        | some s => s
        | none => text
  ((jsonStr.dropWhile (fun c => !(c == '{'))).reverse.dropWhile
    (fun c => !(c == '}'))).reverse

/-- `String.prototype.trim()` (used for image-to-prompt replies). -/
def jsTrim (s : String) : String :=
  ⟨((s.data.dropWhile jsWhitespaceChar).reverse.dropWhile
    jsWhitespaceChar).reverse⟩

/-- `analyzeImageWithGemini` from `geminiApi.ts`, after the HTTP response
arrives.  `parseJson` stands for `JSON.parse` on the extracted string
(`none` = a thrown `SyntaxError`); `minKeywords` is the option of the same
name.  The error policy of the source's single `try/catch` is explicit:
an error response or an unparsable reply produces a result carrying only
the error message; a successful parse post-processes the fields
(symbol-free title, Freepik keyword fallback and base model, per-platform
category suggestion). -/
def analyzeImageWithGemini (parseJson : String → Option ParsedMeta)
    (platforms : List Platform) (generationMode : GenerationMode)
    (minKeywords : Nat) (fetchResult : FetchOutcome) : AnalysisResult :=
  let isFreepikOnly := platforms == [Platform.Freepik]
  let isShutterstock := platforms == [Platform.Shutterstock]
  let isAdobeStock := platforms == [Platform.AdobeStock]
  match fetchResult with
  | FetchOutcome.httpError msg =>
    errorAnalysisResult (if msg == "" then "Failed to analyze image" else msg)
  | FetchOutcome.ok text =>
    if generationMode == GenerationMode.imageToPrompt then
      ⟨"", jsTrim text, [], none, none, none, none⟩
    else
      match parseJson (⟨extractJsonStr text.data⟩ : String) with
      | none =>
        errorAnalysisResult "Failed to parse metadata from the API response"
      | some parsed =>
        let title1 : Option String :=
          match parsed.title with
          | some t => if t == "" then some t
                      else some (removeSymbolsFromTitle t)
          | none => none
        let keywords1 : Option (List String) :=
          if isFreepikOnly then
            match parsed.keywords with
            | some ks =>
              if ks.length < minKeywords then
                some (getRelevantFreepikKeywords (parsed.prompt.getD ""))
              else some ks
            | none =>
              some (getRelevantFreepikKeywords (parsed.prompt.getD ""))
          else parsed.keywords
        let baseModel1 : Option String :=
          if isFreepikOnly then some "leonardo" else parsed.baseModel
        let categories1 : Option (List String) :=
          if isShutterstock then
            some (suggestCategoriesForShutterstock (title1.getD "")
              (parsed.description.getD ""))
          else if isAdobeStock then
            some (suggestCategoriesForAdobeStock (title1.getD "")
              (keywords1.getD []))
          else parsed.categories
        ⟨title1.getD "", parsed.description.getD "", keywords1.getD [],
          parsed.prompt,
          some (match baseModel1 with
            | some s => if s == "" then "leonardo" else s
            | none => "leonardo"),
          categories1, none⟩

/-! ## Final-state lemmas for the orchestrator loop -/

theorem resolveEntry_fields (f s : Bool) (res : AnalysisResult)
    (img : ProcessedImage) :
    (resolveEntry f s res img).status =
        (if errTruthy res.error then ImageStatus.error
         else ImageStatus.complete) ∧
      (resolveEntry f s res img).error = res.error := by
  rw [resolveEntry]
  by_cases h : errTruthy res.error
  · rw [if_pos h, if_pos h]
    exact ⟨rfl, rfl⟩
  · rw [if_neg h, if_neg h]
    exact ⟨rfl, rfl⟩

/-- After `applyResult` on `tid`, every entry with id `tid` carries the
status and error dictated by the result. -/
theorem applyResult_resolves (f s : Bool) (res : AnalysisResult)
    (tid : String) (cur : List ProcessedImage) :
    ∀ e ∈ applyResult f s tid res cur, e.id = tid →
      e.status = (if errTruthy res.error then ImageStatus.error
        else ImageStatus.complete) ∧ e.error = res.error := by
  intro e he heid
  obtain ⟨e', _, hstep⟩ := List.mem_map.mp he
  by_cases hc : (e'.id == tid) = true
  · rw [if_pos hc] at hstep
    rw [← hstep]
    exact resolveEntry_fields f s res e'
  · rw [if_neg hc] at hstep
    rw [← hstep] at heid
    exact absurd (beq_iff_eq.mpr heid) hc

/-- `applyResult` on a different target id leaves any property of the
entries with id `tid` intact. -/
theorem applyResult_preserves (f s : Bool) (res : AnalysisResult)
    (tid tid' : String) (hne : ¬ tid = tid') (cur : List ProcessedImage)
    (Q : ProcessedImage → Prop)
    (hcur : ∀ e ∈ cur, e.id = tid → Q e) :
    ∀ e ∈ applyResult f s tid' res cur, e.id = tid → Q e := by
  intro e he heid
  obtain ⟨e', he', hstep⟩ := List.mem_map.mp he
  by_cases hc : (e'.id == tid') = true
  · rw [if_pos hc] at hstep
    have : e.id = e'.id := by rw [← hstep, resolveEntry_id]
    rw [heid] at this
    exact absurd (this.trans (beq_iff_eq.mp hc)) hne
  · rw [if_neg hc] at hstep
    rw [← hstep]
    exact hcur e' he' (by rw [hstep, heid])

/-- Running the loop over pending images none of which has id `tid`
preserves any property of the entries with id `tid`. -/
theorem processLoop_preserves (outcome : ProcessedImage → AnalysisResult)
    (f s : Bool) (tid : String) (Q : ProcessedImage → Prop) :
    ∀ (pending : List ProcessedImage) (i : Nat)
      (cur : List ProcessedImage),
      (∀ p ∈ pending, ¬ p.id = tid) →
      (∀ e ∈ cur, e.id = tid → Q e) →
      ∀ e ∈ (processLoop outcome f s pending i cur).final,
        e.id = tid → Q e := by
  intro pending
  induction pending with
  | nil => intro i cur _ hcur; exact hcur
  | cons p rest ih =>
    intro i cur hpend hcur
    rw [processLoop]
    refine ih (i + 1) _ (fun q hq => hpend q (List.mem_cons_of_mem p hq)) ?_
    have hpt : ¬ tid = p.id :=
      fun h => hpend p (List.mem_cons_self p rest) h.symm
    exact applyResult_preserves f s (outcome p) tid p.id hpt cur Q hcur

/-- The per-image outcome of the loop: with pairwise distinct pending
ids, the final entry carrying a pending image's id has the status and
error determined by that image's AI result. -/
theorem processLoop_final_status (outcome : ProcessedImage → AnalysisResult)
    (f s : Bool) :
    ∀ (pending : List ProcessedImage) (i : Nat)
      (cur : List ProcessedImage),
      (pending.map (fun p => p.id)).Nodup →
      ∀ img ∈ pending,
        ∀ e ∈ (processLoop outcome f s pending i cur).final,
          e.id = img.id →
            e.status = (if errTruthy (outcome img).error then
              ImageStatus.error else ImageStatus.complete) ∧
            e.error = (outcome img).error := by
  intro pending
  induction pending with
  | nil => intro i cur _ img him; exact absurd him (List.not_mem_nil img)
  | cons p rest ih =>
    intro i cur hnd img him
    have hnd' : (∀ x ∈ rest, ¬ x.id = p.id) ∧
        (rest.map (fun p => p.id)).Nodup := by simpa using hnd
    rcases List.mem_cons.mp him with rfl | hrest
    · rw [processLoop]
      refine processLoop_preserves outcome f s img.id _ rest (i + 1) _
        ?_ ?_
      · exact hnd'.1
      · exact applyResult_resolves f s (outcome img) img.id cur
    · rw [processLoop]
      exact ih (i + 1) _ hnd'.2 img hrest

/-- The loop does not change the multiset of ids (in fact not even their
order). -/
theorem processLoop_final_ids (outcome : ProcessedImage → AnalysisResult)
    (f s : Bool) :
    ∀ (pending : List ProcessedImage) (i : Nat)
      (cur : List ProcessedImage),
      (processLoop outcome f s pending i cur).final.map (fun e => e.id) =
        cur.map (fun e => e.id) := by
  intro pending
  induction pending with
  | nil => intro i cur; rfl
  | cons p rest ih =>
    intro i cur
    rw [processLoop]
    simp only []
    rw [ih]
    rw [applyResult, List.map_map]
    apply List.map_congr_left
    intro e _
    by_cases hc : e.id = p.id
    · simp [hc, resolveEntry_id]
    · simp [hc]

theorem bulkMarkProcessing_ids (l : List ProcessedImage) :
    (bulkMarkProcessing l).map (fun e => e.id) = l.map (fun e => e.id) := by
  rw [bulkMarkProcessing, List.map_map]
  apply List.map_congr_left
  intro e _
  by_cases hc : e.status = ImageStatus.pending
  · simp [hc, markProcessing]
  · simp [hc]

/-- C8: the AI client's failure policy and the orchestrator's reaction.
(1) An HTTP error response yields, without throwing, the error-only result
(with a nonempty message).  (2) A reply whose extracted JSON does not
parse yields the error-only parse-failure result.  (3) The error result
carries only the error field.  (4) The orchestrator calls the AI exactly
once per pending image (no retry), and — for distinct ids — the final
entry of an image whose result carries an error is marked `error` (others
`complete`), the remaining images being processed regardless. -/
theorem ai_failure_policy :
    (∀ (parseJson : String → Option ParsedMeta) (platforms : List Platform)
      (generationMode : GenerationMode) (minKeywords : Nat) (msg : String),
      analyzeImageWithGemini parseJson platforms generationMode minKeywords
          (FetchOutcome.httpError msg) =
        errorAnalysisResult
          (if msg == "" then "Failed to analyze image" else msg) ∧
      ¬ (if msg == "" then "Failed to analyze image" else msg) = "") ∧
    (∀ (parseJson : String → Option ParsedMeta) (platforms : List Platform)
      (generationMode : GenerationMode) (minKeywords : Nat) (text : String),
      ¬ generationMode = GenerationMode.imageToPrompt →
      parseJson (⟨extractJsonStr text.data⟩ : String) = none →
      analyzeImageWithGemini parseJson platforms generationMode minKeywords
          (FetchOutcome.ok text) =
        errorAnalysisResult "Failed to parse metadata from the API response") ∧
    (∀ msg : String,
      (errorAnalysisResult msg).title = "" ∧
      (errorAnalysisResult msg).description = "" ∧
      (errorAnalysisResult msg).keywords = [] ∧
      (errorAnalysisResult msg).prompt = none ∧
      (errorAnalysisResult msg).baseModel = none ∧
      (errorAnalysisResult msg).categories = none ∧
      (errorAnalysisResult msg).error = some msg) ∧
    (∀ (apiKey : String) (canGenerateMetadata creditOk : Bool)
      (platforms : List Platform)
      (outcome : ProcessedImage → AnalysisResult)
      (images : List ProcessedImage) (t : LoopTrace),
      handleProcessImagesModel apiKey canGenerateMetadata creditOk platforms
          outcome images = some t →
      (images.map (fun i => i.id)).Nodup →
      t.calls = (images.filter
          (fun i => i.status == ImageStatus.pending)).map
            (fun i => i.file) ∧
      ∀ img ∈ images.filter (fun i => i.status == ImageStatus.pending),
        (∃ e ∈ t.final, e.id = img.id) ∧
        ∀ e ∈ t.final, e.id = img.id →
          e.status = (if errTruthy (outcome img).error then
            ImageStatus.error else ImageStatus.complete) ∧
          e.error = (outcome img).error) := by
  refine ⟨?_, ?_, ?_, ?_⟩
  · intro parseJson platforms generationMode minKeywords msg
    refine ⟨rfl, ?_⟩
    by_cases h : (msg == "") = true
    · rw [if_pos h]; decide
    · rw [if_neg h]
      exact fun he => h (beq_iff_eq.mpr he)
  · intro parseJson platforms generationMode minKeywords text hmode hparse
    have hm : (generationMode == GenerationMode.imageToPrompt) = false :=
      beq_eq_false_iff_ne.mpr hmode
    simp only [analyzeImageWithGemini, hm, Bool.false_eq_true, if_false,
      hparse]
  · intro msg
    exact ⟨rfl, rfl, rfl, rfl, rfl, rfl, rfl⟩
  · intro apiKey canGen creditOk platforms outcome images t ht hnd
    simp only [handleProcessImagesModel] at ht
    split at ht
    · exact absurd ht (by simp)
    · split at ht
      · exact absurd ht (by simp)
      · split at ht
        · exact absurd ht (by simp)
        · split at ht
          · exact absurd ht (by simp)
          · have ht2 := Option.some_inj.mp ht
            have hpnd : ((images.filter
                (fun i => i.status == ImageStatus.pending)).map
                  (fun p => p.id)).Nodup :=
              ((List.filter_sublist images).map (fun p => p.id)).nodup hnd
            constructor
            · rw [← ht2]
              exact processLoop_calls _ _ _ _ _ _
            · intro img him
              constructor
              · -- an entry with the image's id survives to the final state
                have hidmem : img.id ∈
                    (images.filter
                      (fun i => i.status == ImageStatus.pending)).map
                        (fun e => e.id) :=
                  List.mem_map.mpr ⟨img, him, rfl⟩
                have hidmem2 : img.id ∈ images.map (fun e => e.id) := by
                  refine List.Sublist.mem hidmem ?_
                  exact (List.filter_sublist images).map _
                have hfin : t.final.map (fun e => e.id) =
                    images.map (fun e => e.id) := by
                  rw [← ht2]
                  simp only []
                  rw [processLoop_final_ids, bulkMarkProcessing_ids]
                rw [← hfin] at hidmem2
                obtain ⟨e, he, heid⟩ := List.mem_map.mp hidmem2
                exact ⟨e, he, heid⟩
              · intro e he heid
                have := processLoop_final_status outcome
                  (platforms == [Platform.Freepik])
                  (platforms == [Platform.Shutterstock])
                  (images.filter (fun i => i.status == ImageStatus.pending))
                  0 (bulkMarkProcessing images) hpnd img him e
                  (by rw [← ht2] at he; exact he) heid
                exact this

theorem ai_failure_policy_witness :
    analyzeImageWithGemini (fun _ => none) [Platform.AdobeStock]
        GenerationMode.metadata 35 (FetchOutcome.ok "hello") =
      errorAnalysisResult "Failed to parse metadata from the API response" ∧
    analyzeImageWithGemini (fun _ => none) [Platform.AdobeStock]
        GenerationMode.metadata 35 (FetchOutcome.httpError "boom") =
      errorAnalysisResult "boom" ∧
    demoTrace.calls = (demoBatch.filter
        (fun i => i.status == ImageStatus.pending)).map
          (fun i => i.file) := by
  refine ⟨?_, ?_, ?_⟩
  · exact ai_failure_policy.2.1 (fun _ => none) [Platform.AdobeStock]
      GenerationMode.metadata 35 "hello" (by decide) rfl
  · have h := (ai_failure_policy.1 (fun _ => none) [Platform.AdobeStock]
      GenerationMode.metadata 35 "boom").1
    have hb : (("boom" : String) == "") = false := by decide
    rw [hb] at h
    simpa using h
  · exact (ai_failure_policy.2.2.2 "key" true true [Platform.AdobeStock]
      demoOutcome demoBatch demoTrace (by decide) (by decide)).1

theorem pdf_rejected_before_pipeline_witness :
    isValidMediaType ⟨"doc.pdf", "application/pdf", 5⟩ = false ∧
    processFiles (fun _ => some "url") (fun _ => "id")
        [⟨"doc.pdf", "application/pdf", 5⟩] = [] :=
  ⟨pdf_rejected_before_pipeline.1 ⟨"doc.pdf", "application/pdf", 5⟩ rfl,
    by decide⟩
